import Mathlib

/-!
Shallow embedding of the SAW spatial-viewport core (TypeScript, three.js) and
verification of its specification claims.

Embedded source files:
* `src/packages/app/src/viewport/UI3D.ts` — `DishMenu3D` (category version) and
  `BryceCamera` (egocentric orbit camera controller);
* `src/packages/app/src/viewport/ExocentricCamera.ts` — `ExocentricCamera`;
* `src/unnamed/part_000` — main entry, `toggleExoMode` mode-switch coordinator.

Modelling conventions:
* JavaScript numbers are idealised as real numbers `ℝ` for the camera math
  (which uses `Math.sin`/`Math.cos`/`Math.sqrt`/`Math.PI`), and as exact
  rationals `ℚ` for the dish-menu bookkeeping (whose numeric literals are all
  exact decimal constants), keeping the menu model fully executable.
* `THREE.Vector3` is the structure `Vec3` below; `camera.lookAt` orientation is
  represented by the pair (position, look-target) together with the up hint,
  from which the three.js `Matrix4.lookAt` basis is derived.
* Mutable heap objects whose identity matters (the dish-menu item meshes, which
  the source compares with `===` via `Array.prototype.indexOf`) carry an
  allocation number `ref`; each rebuild allocates fresh numbers.
* `Math.atan2` is never evaluated at a point where its value matters to a
  claim, so it is passed as an abstract function to the mode-switch model.
* The raycaster is abstracted: a hit is an optional index into the list of
  interactable objects passed to `intersectObjects` (the source only ever uses
  `intersects[0].object`, the nearest hit).  Theorems quantify over every such
  hit, hence over every pointer position and scene geometry.
-/

/-- Component-wise real 3-vector, modelling `THREE.Vector3`. -/
structure Vec3 where
  x : ℝ
  y : ℝ
  z : ℝ

instance : Add Vec3 := ⟨fun a b => ⟨a.x + b.x, a.y + b.y, a.z + b.z⟩⟩

instance : Sub Vec3 := ⟨fun a b => ⟨a.x - b.x, a.y - b.y, a.z - b.z⟩⟩

instance : SMul ℝ Vec3 := ⟨fun c a => ⟨c * a.x, c * a.y, c * a.z⟩⟩

/-- Dot product of two vectors (`THREE.Vector3.dot`). -/
def Vec3.dot (a b : Vec3) : ℝ := a.x * b.x + a.y * b.y + a.z * b.z

/-- Cross product (`THREE.Vector3.crossVectors`). -/
def Vec3.cross (a b : Vec3) : Vec3 :=
  ⟨a.y * b.z - a.z * b.y, a.z * b.x - a.x * b.z, a.x * b.y - a.y * b.x⟩

/-- Euclidean length (`THREE.Vector3.length`). -/
noncomputable def Vec3.len (a : Vec3) : ℝ := Real.sqrt (a.dot a)

/-- Normalisation (`THREE.Vector3.normalize`); the degenerate zero vector does
not occur at any point of use in the embedded code. -/
noncomputable def Vec3.normalize (a : Vec3) : Vec3 := (1 / a.len) • a

/-- World up axis, the default `camera.up` hint `(0, 1, 0)`. -/
def worldUp : Vec3 := ⟨0, 1, 0⟩

noncomputable section CameraMath

/-- The z axis computed by `THREE.Matrix4.lookAt(eye, target, up)`:
`normalize(eye - target)`. -/
def lookAtZ (eye target : Vec3) : Vec3 := (eye - target).normalize

/-- The x axis computed by `THREE.Matrix4.lookAt`: `normalize(up × z)`. -/
def lookAtX (eye target upHint : Vec3) : Vec3 := (upHint.cross (lookAtZ eye target)).normalize

/-- The y axis computed by `THREE.Matrix4.lookAt`: `z × x`.  This is the
camera's actual up basis vector after `camera.lookAt(target)`. -/
def lookAtY (eye target upHint : Vec3) : Vec3 :=
  (lookAtZ eye target).cross (lookAtX eye target upHint)

/-- The camera's forward basis vector, as returned by
`camera.getWorldDirection` after `camera.lookAt(target)`: the negated z axis,
equal to `normalize(target - eye)`. -/
def cameraForward (eye target : Vec3) : Vec3 := (target - eye).normalize

/-- Spherical-to-Cartesian offset used by both camera controllers:
`(r·sin φ·cos θ, r·cos φ, r·sin φ·sin θ)`. -/
def sphericalOffset (theta phi radius : ℝ) : Vec3 :=
  ⟨radius * Real.sin phi * Real.cos theta,
   radius * Real.cos phi,
   radius * Real.sin phi * Real.sin theta⟩

/-- Orbit state of `BryceCamera` (`CameraState` in `UI3D.ts`): spherical
coordinates plus the target point. -/
structure CameraState where
  theta : ℝ
  phi : ℝ
  radius : ℝ
  target : Vec3

/-- `BryceCamera` settings (`UI3D.ts` lines 709–715). -/
def bryceOrbitSpeed : ℝ := 0.005

/-- Pan speed setting of `BryceCamera`. -/
def brycePanSpeed : ℝ := 0.02

/-- Dolly speed setting of `BryceCamera`. -/
def bryceDollySpeed : ℝ := 0.1

/-- Minimum orbit radius of `BryceCamera`. -/
def bryceMinRadius : ℝ := 1

/-- Maximum orbit radius of `BryceCamera`. -/
def bryceMaxRadius : ℝ := 500

/-- Minimum polar angle of `BryceCamera`. -/
def bryceMinPhi : ℝ := 0.1

/-- Maximum polar angle of `BryceCamera`. -/
def bryceMaxPhi : ℝ := Real.pi - 0.1

/-- The default `BryceCamera` state (constructor initialiser, also restored by
`reset()`). -/
def bryceDefault : CameraState :=
  { theta := Real.pi / 4, phi := Real.pi / 4, radius := 17, target := ⟨0, 0, 0⟩ }

/-- Camera world position derived from the orbit state by
`BryceCamera.updateCamera`: `target + sphericalOffset`. -/
def bryceCameraPos (s : CameraState) : Vec3 := s.target + sphericalOffset s.theta s.phi s.radius

/-- `BryceCamera.orbit(dx, dy)`: update both angles by `Δ × orbitSpeed`, then
clamp `phi` to `[minPhi, maxPhi]`. -/
def bryceOrbit (dx dy : ℝ) (s : CameraState) : CameraState :=
  { s with
    theta := s.theta - dx * bryceOrbitSpeed,
    phi := max bryceMinPhi (min bryceMaxPhi (s.phi - dy * bryceOrbitSpeed)) }

/-- `BryceCamera.pan(dx, dy)`: translate the target along the camera's current
right and up basis vectors (`camera.matrix.extractBasis`), scaled by
`radius × panSpeed × 0.01`.  The camera matrix at this point reflects the last
`updateCamera` call, i.e. position `bryceCameraPos s` looking at `s.target`. -/
def brycePan (dx dy : ℝ) (s : CameraState) : CameraState :=
  let scale := s.radius * brycePanSpeed * 0.01
  let right := lookAtX (bryceCameraPos s) s.target worldUp
  let up := lookAtY (bryceCameraPos s) s.target worldUp
  { s with target := s.target + (-dx * scale) • right + (dy * scale) • up }

/-- `BryceCamera.dolly(delta)`: add to the radius, clamped to
`[minRadius, maxRadius]`. -/
def bryceDolly (delta : ℝ) (s : CameraState) : CameraState :=
  { s with radius := max bryceMinRadius (min bryceMaxRadius (s.radius + delta)) }

/-- The four named view presets of `BryceCamera.jumpToView`. -/
inductive ViewName where
  | top
  | front
  | side
  | perspective

/-- `BryceCamera.jumpToView(view)`: set both angles to fixed preset values
(the DOM button-highlighting side effects are outside the model). -/
def bryceJumpToView (v : ViewName) (s : CameraState) : CameraState :=
  match v with
  | .top => { s with theta := 0, phi := 0.01 }
  | .front => { s with theta := 0, phi := Real.pi / 2 }
  | .side => { s with theta := Real.pi / 2, phi := Real.pi / 2 }
  | .perspective => { s with theta := Real.pi / 4, phi := Real.pi / 4 }

/-- A mutating operation of the egocentric controller, as named by claim C2. -/
inductive CamOp where
  | orbit (dx dy : ℝ)
  | pan (dx dy : ℝ)
  | dolly (delta : ℝ)
  | jump (v : ViewName)

/-- Apply one `CamOp` to the orbit state. -/
def applyCamOp (s : CameraState) : CamOp → CameraState
  | .orbit dx dy => bryceOrbit dx dy s
  | .pan dx dy => brycePan dx dy s
  | .dolly d => bryceDolly d s
  | .jump v => bryceJumpToView v s

/-- Apply a sequence of `CamOp`s in order. -/
def applyCamOps (s : CameraState) (ops : List CamOp) : CameraState := ops.foldl applyCamOp s

end CameraMath

noncomputable section ExoAndSystem

/-- `ExocentricCamera` settings (`ExocentricCamera.ts` lines 27–33). -/
def exoOrbitSpeed : ℝ := 0.005

/-- Dolly speed setting of `ExocentricCamera`. -/
def exoDollySpeed : ℝ := 0.1

/-- Minimum orbit radius of `ExocentricCamera`. -/
def exoMinRadius : ℝ := 1

/-- Maximum orbit radius of `ExocentricCamera`. -/
def exoMaxRadius : ℝ := 10

/-- Minimum polar angle of `ExocentricCamera`. -/
def exoMinPhi : ℝ := 0.2

/-- Maximum polar angle of `ExocentricCamera`. -/
def exoMaxPhi : ℝ := Real.pi * 0.8

/-- Full state of the `ExocentricCamera` controller. -/
structure ExoState where
  userPosition : Vec3
  userDirection : Vec3
  theta : ℝ
  phi : ℝ
  radius : ℝ
  isDragging : Bool
  lastX : ℝ
  lastY : ℝ
  ghostPos : Vec3
  ghostRotY : ℝ
  ghostVisible : Bool
  isActive : Bool

/-- Initial `ExocentricCamera` state (field initialisers of the class). -/
def exoInit : ExoState :=
  { userPosition := ⟨0, 0, 0⟩, userDirection := ⟨0, 0, 0⟩
    theta := Real.pi / 4, phi := Real.pi / 3, radius := 3
    isDragging := false, lastX := 0, lastY := 0
    ghostPos := ⟨0, 0, 0⟩, ghostRotY := 0, ghostVisible := false, isActive := false }

/-- Camera world position written by `ExocentricCamera.updateCamera`: the
spherical offset around the user position, raised one unit from the ground. -/
def exoCameraPos (e : ExoState) : Vec3 :=
  ⟨e.userPosition.x + e.radius * Real.sin e.phi * Real.cos e.theta,
   e.userPosition.y + e.radius * Real.cos e.phi + 1,
   e.userPosition.z + e.radius * Real.sin e.phi * Real.sin e.theta⟩

/-- Look target written by `ExocentricCamera.updateCamera`: the user position
at head level (`y + 1`). -/
def exoCameraLook (e : ExoState) : Vec3 :=
  ⟨e.userPosition.x, e.userPosition.y + 1, e.userPosition.z⟩

/-- `ExocentricCamera.activate(pos, dir)` acting on the controller state; the
facing angle is `Math.atan2(dir.x, dir.z)`, passed in abstractly. -/
def exoActivate (atan2 : ℝ → ℝ → ℝ) (pos dir : Vec3) (e : ExoState) : ExoState :=
  let angle := atan2 dir.x dir.z
  { e with
    userPosition := pos, userDirection := dir
    ghostPos := ⟨pos.x, 0, pos.z⟩, ghostRotY := angle, ghostVisible := true
    isActive := true
    theta := angle + Real.pi, phi := Real.pi / 3, radius := 3 }

/-- `ExocentricCamera.deactivate()`: hide the ghost and go inactive; nothing
else — in particular the shared camera is left untouched. -/
def exoDeactivate (e : ExoState) : ExoState :=
  { e with ghostVisible := false, isActive := false }

/-- The state visible to the mode-switch coordinator in `src/unnamed/part_000`:
both controllers, the mode flag, and the single shared camera (pose represented
by its world position and its `lookAt` target). -/
structure SystemState where
  ego : CameraState
  exo : ExoState
  isExoMode : Bool
  camPos : Vec3
  camLook : Vec3

/-- System state after `main` has constructed both controllers: the
`BryceCamera` constructor runs `updateCamera()`, so the shared camera starts at
the egocentric pose of the default orbit state. -/
def initSystem : SystemState :=
  { ego := bryceDefault, exo := exoInit, isExoMode := false
    camPos := bryceCameraPos bryceDefault, camLook := bryceDefault.target }

/-- `toggleExoMode()` from `src/unnamed/part_000` lines 52–73.  Switching to
exocentric captures the camera position and forward direction and calls
`exoCamera.activate` (whose trailing `updateCamera()` rewrites the shared
camera pose).  Switching back calls only `exoCamera.deactivate()`; the comment
"Restore ego camera to user position" is not followed by any code, and
`BryceCamera.update` (the per-frame call) has an empty body, so the shared
camera keeps the exocentric pose. -/
def toggleExoMode (atan2 : ℝ → ℝ → ℝ) (s : SystemState) : SystemState :=
  if s.isExoMode = false then
    let pos := s.camPos
    let dir := cameraForward s.camPos s.camLook
    let exo := exoActivate atan2 pos dir s.exo
    { s with isExoMode := true, exo := exo
             camPos := exoCameraPos exo, camLook := exoCameraLook exo }
  else
    { s with isExoMode := false, exo := exoDeactivate s.exo }

/-- Mouse/pointer events reaching the viewport container, plus the nav-ball
`mousedown` (a separate listener registered by `BryceCamera.bindEvents` that
also starts a drag).  `mouseleave` is bound to the same handler as `mouseup`
in both controllers. -/
inductive MouseEvt where
  | down (button : ℕ) (x y : ℝ)
  | move (x y : ℝ)
  | up
  | leave
  | wheel (deltaY : ℝ)
  | navDown (x y : ℝ)

/-- Events that begin a drag in `BryceCamera` (`mousedown` on the container or
on the nav ball). -/
def isDownEvt : MouseEvt → Bool
  | .down _ _ _ => true
  | .navDown _ _ => true
  | _ => false

/-- Input-handling state of `BryceCamera`: the orbit state plus the dragging
flags and last mouse position. -/
structure BryceIO where
  cam : CameraState
  isDragging : Bool
  isPanning : Bool
  lastX : ℝ
  lastY : ℝ

/-- `BryceCamera` input state after construction. -/
def bryceInit : BryceIO :=
  { cam := bryceDefault, isDragging := false, isPanning := false, lastX := 0, lastY := 0 }

/-- One step of the `BryceCamera` event handlers (`onMouseDown`, `onMouseMove`,
`onMouseUp` — also bound to `mouseleave` —, `onWheel`, and the nav-ball
`mousedown` listener). -/
def bryceStep (s : BryceIO) : MouseEvt → BryceIO
  | .down b x y =>
    if b = 0 then { s with isDragging := true, lastX := x, lastY := y }
    else if b = 2 ∨ b = 1 then { s with isPanning := true, lastX := x, lastY := y }
    else { s with lastX := x, lastY := y }
  | .move x y =>
    let dx := x - s.lastX
    let dy := y - s.lastY
    let cam :=
      if s.isDragging then bryceOrbit dx dy s.cam
      else if s.isPanning then brycePan dx dy s.cam
      else s.cam
    { s with cam := cam, lastX := x, lastY := y }
  | .up => { s with isDragging := false, isPanning := false }
  | .leave => { s with isDragging := false, isPanning := false }
  | .wheel dy => { s with cam := bryceDolly (dy * bryceDollySpeed) s.cam }
  | .navDown x y => { s with isDragging := true, lastX := x, lastY := y }

/-- Run a list of events through the `BryceCamera` handlers. -/
def bryceRun (s : BryceIO) (es : List MouseEvt) : BryceIO := es.foldl bryceStep s

/-- One step of the `ExocentricCamera` event handlers.  Every handler first
checks `isActive` except `onMouseUp` (also bound to `mouseleave`), which
unconditionally clears the drag.  The nav-ball listener belongs to
`BryceCamera` only, so `navDown` is ignored here.  The shared-camera write in
`updateCamera` is modelled in `SystemState`; here only controller-local fields
are tracked. -/
def exoStep (e : ExoState) : MouseEvt → ExoState
  | .down b x y =>
    if e.isActive = false then e
    else if b = 0 then { e with isDragging := true, lastX := x, lastY := y }
    else e
  | .move x y =>
    if e.isActive = false ∨ e.isDragging = false then e
    else
      let dx := x - e.lastX
      let dy := y - e.lastY
      { e with
        theta := e.theta - dx * exoOrbitSpeed
        phi := max exoMinPhi (min exoMaxPhi (e.phi - dy * exoOrbitSpeed))
        lastX := x, lastY := y }
  | .up => { e with isDragging := false }
  | .leave => { e with isDragging := false }
  | .wheel dy =>
    if e.isActive = false then e
    else { e with radius := max exoMinRadius (min exoMaxRadius (e.radius + dy * exoDollySpeed * 0.01)) }
  | .navDown _ _ => e

/-- Run a list of events through the `ExocentricCamera` handlers. -/
def exoRun (e : ExoState) (es : List MouseEvt) : ExoState := es.foldl exoStep e

/-- Body-locked vertical offset of `DishMenu3D` (`offsetY`, below eye level). -/
def dishOffsetY : ℝ := -0.8

/-- Body-locked forward offset of `DishMenu3D` (`offsetZ`, in front of the
camera; used negated). -/
def dishOffsetZ : ℝ := -1.5

/-- The world position computed by `DishMenu3D.update()` (lines 531–554):
`cameraPos.clone().add(cameraDir.multiplyScalar(-offsetZ)).add(new Vector3(0, offsetY, 0))`.
Note the vertical offset is a world-space vector, not a multiple of the
camera's up basis vector. -/
def dishGroupPos (cameraPos cameraDir : Vec3) : Vec3 :=
  cameraPos + (-dishOffsetZ) • cameraDir + ⟨0, dishOffsetY, 0⟩

/-- `DishMenu3D.update()` effect on the widget group's world position: a no-op
while hidden, otherwise `dishGroupPos` of the camera's current pose. -/
def dishUpdateGroupPos (isVisible : Bool) (cameraPos cameraDir : Vec3) (old : Vec3) : Vec3 :=
  if isVisible then dishGroupPos cameraPos cameraDir else old

end ExoAndSystem

/-- A dish-menu item description (`DishMenuItem` in `UI3D.ts`); the `icon` and
`color` fields never influence behaviour beyond material colours and are
omitted / kept respectively only as data. -/
structure DishMenuItem where
  id : String
  label : String
  url : Option String
deriving DecidableEq

/-- A dish-menu category (`DishMenuCategory`). -/
structure DishMenuCategory where
  id : String
  label : String
  items : List DishMenuItem
deriving DecidableEq

/-- A `THREE.Mesh` created by `DishMenu3D.rebuildItems`, reduced to the fields
the behaviour reads: its identity (`ref`, standing for JavaScript object
identity, compared by `===` in `Array.prototype.indexOf`), its `userData`
(`menuItemId`, `url`, `isCategoryToggle`), and its material's mutable
`emissiveIntensity`. -/
structure ItemMesh where
  ref : ℕ
  menuItemId : String
  url : Option String
  isCategoryToggle : Bool
  emissiveIntensity : ℚ
deriving DecidableEq

/-- A label `THREE.Sprite`: its rendered text and mutable visibility. -/
structure LabelSprite where
  text : String
  visible : Bool
deriving DecidableEq

/-- The mutable state of a `DishMenu3D` instance.  `hoveredRef` is the identity
of `this.hoveredItem` (`none` for `null`); `nextRef` is the allocation counter
for fresh mesh identities; `onSelectSet` records whether `this.onSelect` is
non-null (the callback itself is represented by the invocation record returned
from `handleClick`). -/
structure MenuState where
  isVisible : Bool
  categories : List DishMenuCategory
  currentCategoryIndex : ℕ
  items : List ItemMesh
  labels : List LabelSprite
  centerToggle : Option ItemMesh
  centerLabel : Option LabelSprite
  hoveredRef : Option ℕ
  onSelectSet : Bool
  nextRef : ℕ
deriving DecidableEq

/-- A fresh `DishMenu3D` (constructor: invisible, no data). -/
def menuInit : MenuState :=
  { isVisible := false, categories := [], currentCategoryIndex := 0
    items := [], labels := [], centerToggle := none, centerLabel := none
    hoveredRef := none, onSelectSet := false, nextRef := 0 }

/-- The item list of the current category, as read by `rebuildItems`
(`this.categories[this.currentCategoryIndex].items`). -/
def currentItems (s : MenuState) : List DishMenuItem :=
  match s.categories[s.currentCategoryIndex]? with
  | some c => c.items
  | none => []

/-- Item mesh created for menu item `m` with identity `r` (emissive intensity
starts at `0.1`, `isCategoryToggle` is absent i.e. `false`). -/
def mkMesh (r : ℕ) (m : DishMenuItem) : ItemMesh :=
  { ref := r, menuItemId := m.id, url := m.url, isCategoryToggle := false
    emissiveIntensity := (0.1 : ℚ) }

/-- Meshes for a list of menu items, with consecutive fresh identities starting
at `base`. -/
def buildMeshes : ℕ → List DishMenuItem → List ItemMesh
  | _, [] => []
  | base, m :: ms => mkMesh base m :: buildMeshes (base + 1) ms

/-- Label sprite created for menu item `m` (hidden until hovered). -/
def mkLabel (m : DishMenuItem) : LabelSprite := { text := m.label, visible := false }

/-- Labels for a list of menu items. -/
def buildLabels (ms : List DishMenuItem) : List LabelSprite := ms.map mkLabel

/-- `DishMenu3D.rebuildItems()`.  Clears all item/label/toggle objects; if the
category list is empty it stops there (the explicit guard); otherwise it reads
the current category — indexing past the end of a non-empty array would be a
JavaScript `TypeError` on `.items`, modelled as an error — creates the centre
toggle when there is more than one category, and recreates item meshes and
hidden labels.  `hoveredItem` is *not* cleared. -/
def rebuildItems (s : MenuState) : Except String MenuState :=
  let cleared := { s with items := [], labels := [], centerToggle := none, centerLabel := none }
  if s.categories.isEmpty then .ok cleared
  else
    match s.categories[s.currentCategoryIndex]? with
    | none => .error ("undefined current category")
    | some cat =>
      if 1 < s.categories.length then
        .ok { cleared with
              centerToggle := some { ref := s.nextRef, menuItemId := "", url := none
                                     isCategoryToggle := true, emissiveIntensity := (0.2 : ℚ) }
              centerLabel := some { text := cat.label, visible := true }
              items := buildMeshes (s.nextRef + 1) cat.items
              labels := buildLabels cat.items
              nextRef := s.nextRef + 1 + cat.items.length }
      else
        .ok { cleared with
              items := buildMeshes s.nextRef cat.items
              labels := buildLabels cat.items
              nextRef := s.nextRef + cat.items.length }

/-- `DishMenu3D.setCategories(categories, onSelect)`: replace the data, record
the callback, reset the category index and rebuild. -/
def setCategoriesOp (cats : List DishMenuCategory) (s : MenuState) : Except String MenuState :=
  rebuildItems { s with categories := cats, onSelectSet := true, currentCategoryIndex := 0 }

/-- `DishMenu3D.setItems(items, onSelect)` (legacy wrapper): a single default
category. -/
def setItemsOp (items : List DishMenuItem) (s : MenuState) : Except String MenuState :=
  setCategoriesOp [{ id := "default", label := "Items", items := items }] s

/-- `DishMenu3D.nextCategory()`: advance the index modulo the category count
and rebuild.  The modulo with divisor zero on an empty category list is the
hazard named by the spec; its evaluation is modelled as an error. -/
def nextCategory (s : MenuState) : Except String MenuState :=
  if s.categories.length = 0 then .error ("modulo by zero on empty category list")
  else rebuildItems { s with currentCategoryIndex := (s.currentCategoryIndex + 1) % s.categories.length }

/-- `DishMenu3D.show()`. -/
def showMenu (s : MenuState) : MenuState := { s with isVisible := true }

/-- `DishMenu3D.hide()`. -/
def hideMenu (s : MenuState) : MenuState := { s with isVisible := false }

/-- `DishMenu3D.toggle()`. -/
def toggleMenu (s : MenuState) : MenuState := if s.isVisible then hideMenu s else showMenu s

/-- The array passed to `raycaster.intersectObjects`: all item meshes plus the
centre toggle when present. -/
def allInteractable (s : MenuState) : List ItemMesh :=
  s.items ++ (match s.centerToggle with | some t => [t] | none => [])

/-- `Array.prototype.indexOf` on the item array: the first index whose element
is (reference-)equal to `r`, if any. -/
def indexOfRef : List ItemMesh → ℕ → Option ℕ
  | [], _ => none
  | m :: l, r => if m.ref = r then some 0 else (indexOfRef l r).map (· + 1)

/-- Write `emissiveIntensity := v` to the (unique) object with identity `r`,
wherever it lives.  When `r` is stale — the object was removed by a rebuild —
this is a write to an unreachable object, i.e. a no-op on the program state. -/
def setEmissive (r : ℕ) (v : ℚ) (s : MenuState) : MenuState :=
  { s with
    items := s.items.map (fun m => if m.ref = r then { m with emissiveIntensity := v } else m)
    centerToggle := s.centerToggle.map
      (fun t => if t.ref = r then { t with emissiveIntensity := v } else t) }

/-- Set `labels[i].visible := b`; out-of-range `i` (the source's
`idx >= 0 && this.labels[idx]` guard) leaves the list unchanged. -/
def setLabelVis : List LabelSprite → ℕ → Bool → List LabelSprite
  | [], _, _ => []
  | l :: ls, 0, b => { l with visible := b } :: ls
  | l :: ls, i + 1, b => l :: setLabelVis ls i b

/-- The hover-reset prologue of `checkInteraction` (lines 570–579): if there is
a hovered object, restore its base emissive intensity (`0.2` for the toggle,
`0.1` for an item), hide its label when it is still one of the current items,
and clear `hoveredItem`. -/
def clearHover (s : MenuState) : MenuState :=
  match s.hoveredRef with
  | none => s
  | some r =>
    let base := { s with
      items := s.items.map (fun (m : ItemMesh) =>
        if m.ref = r then
          { m with emissiveIntensity := if m.isCategoryToggle then (0.2 : ℚ) else (0.1 : ℚ) }
        else m)
      centerToggle := s.centerToggle.map (fun (t : ItemMesh) =>
        if t.ref = r then
          { t with emissiveIntensity := if t.isCategoryToggle then (0.2 : ℚ) else (0.1 : ℚ) }
        else t) }
    let withLabels :=
      match indexOfRef s.items r with
      | some i => { base with labels := setLabelVis base.labels i false }
      | none => base
    { withLabels with hoveredRef := none }

/-- `DishMenu3D.checkInteraction(mouse)`.  `hit` abstracts the raycaster: the
index in `allInteractable` of the nearest intersected object, if any; an index
with no object behaves as a miss.  Returns the updated state and the source's
return value (`menuItemId`, the sentinel `"__toggle__"`, or `null`). -/
def checkInteraction (hit : Option ℕ) (s : MenuState) : MenuState × Option String :=
  if s.isVisible = false then (s, none)
  else
    let objs := allInteractable s
    let s1 := clearHover s
    match hit with
    | none => (s1, none)
    | some i =>
      match objs[i]? with
      | none => (s1, none)
      | some obj =>
        if obj.isCategoryToggle then
          ({ setEmissive obj.ref (0.6 : ℚ) s1 with hoveredRef := some obj.ref },
           some ("__toggle__"))
        else if obj.menuItemId ≠ "" then
          let s2 := { setEmissive obj.ref (0.5 : ℚ) s1 with hoveredRef := some obj.ref }
          let s3 :=
            match indexOfRef s2.items obj.ref with
            | some i2 => { s2 with labels := setLabelVis s2.labels i2 true }
            | none => s2
          (s3, some obj.menuItemId)
        else (s1, none)

/-- `DishMenu3D.handleClick(mouse)`.  Same abstract raycast; the returned
triple is (updated state, whether the click was consumed, the `onSelect`
invocation `(itemId, url)` if one happened). -/
def handleClick (hit : Option ℕ) (s : MenuState) :
    Except String (MenuState × Bool × Option (String × Option String)) :=
  if s.isVisible = false then .ok (s, false, none)
  else
    let objs := allInteractable s
    match hit with
    | none => .ok (s, false, none)
    | some i =>
      match objs[i]? with
      | none => .ok (s, false, none)
      | some obj =>
        if obj.isCategoryToggle then
          (nextCategory s).map (fun s2 => (s2, true, none))
        else if obj.menuItemId ≠ "" ∧ s.onSelectSet = true then
          .ok (hideMenu s, true, some (obj.menuItemId, obj.url))
        else .ok (s, false, none)

/-- A public operation on a `DishMenu3D`, with the abstract raycast outcome
attached to the interaction calls.  `update` (the body-locked pose update)
does not touch any of the fields modelled here. -/
inductive MenuOp where
  | setCategories (cats : List DishMenuCategory)
  | setItems (items : List DishMenuItem)
  | showOp
  | hideOp
  | toggleVis
  | update
  | check (hit : Option ℕ)
  | click (hit : Option ℕ)

/-- Run one menu operation, discarding return values. -/
def runMenuOp (s : MenuState) : MenuOp → Except String MenuState
  | .setCategories cats => setCategoriesOp cats s
  | .setItems items => setItemsOp items s
  | .showOp => .ok (showMenu s)
  | .hideOp => .ok (hideMenu s)
  | .toggleVis => .ok (toggleMenu s)
  | .update => .ok s
  | .check hit => .ok (checkInteraction hit s).1
  | .click hit => (handleClick hit s).map (·.1)

/-- Run a list of menu operations in order. -/
def runMenuOps : MenuState → List MenuOp → Except String MenuState
  | s, [] => .ok s
  | s, op :: ops =>
    match runMenuOp s op with
    | .ok s2 => runMenuOps s2 ops
    | .error e => .error e

/-- A menu state reachable from a fresh `DishMenu3D` by public operations. -/
def ReachableMenu (s : MenuState) : Prop :=
  ∃ ops : List MenuOp, runMenuOps menuInit ops = .ok s

/-- Operations allowed after `setCategories([], cb)` in claim C4: `update`,
`checkInteraction`, `handleClick`. -/
def isPostOp : MenuOp → Bool
  | .update => true
  | .check _ => true
  | .click _ => true
  | _ => false

/-- An element is hover-emphasised when its emissive intensity differs from its
base value (`0.1` for items, `0.2` for the toggle). -/
def emphasized (m : ItemMesh) : Bool :=
  if m.isCategoryToggle then m.emissiveIntensity ≠ (0.2 : ℚ)
  else m.emissiveIntensity ≠ (0.1 : ℚ)

/-- The full invariant of reachable `DishMenu3D` states.  The hover fields say:
every label's visibility and every element's emissive intensity is the base
state except for the object currently recorded in `hoveredItem`. -/
structure MenuInv (s : MenuState) : Prop where
  idx_lt : s.categories ≠ [] → s.currentCategoryIndex < s.categories.length
  empty_items : s.categories = [] → s.items = []
  empty_labels : s.categories = [] → s.labels = []
  empty_toggle : s.categories = [] → s.centerToggle = none
  len_items : s.items.length = (currentItems s).length
  len_labels : s.labels.length = s.items.length
  item_id : ∀ i (h : i < s.items.length) (h2 : i < (currentItems s).length),
    s.items[i].menuItemId = (currentItems s)[i].id
  item_url : ∀ i (h : i < s.items.length) (h2 : i < (currentItems s).length),
    s.items[i].url = (currentItems s)[i].url
  item_not_toggle : ∀ m ∈ s.items, m.isCategoryToggle = false
  label_text : ∀ i (h : i < s.labels.length) (h2 : i < (currentItems s).length),
    s.labels[i].text = (currentItems s)[i].label
  refs_nodup : (s.items.map (·.ref)).Nodup
  toggle_true : ∀ t, s.centerToggle = some t → t.isCategoryToggle = true
  toggle_fresh : ∀ t, s.centerToggle = some t → ∀ m ∈ s.items, m.ref ≠ t.ref
  toggle_cats : s.centerToggle ≠ none → 1 < s.categories.length
  ref_lt : ∀ m ∈ s.items, m.ref < s.nextRef
  togref_lt : ∀ t, s.centerToggle = some t → t.ref < s.nextRef
  hov_lt : ∀ r, s.hoveredRef = some r → r < s.nextRef
  on_sel : s.categories ≠ [] → s.onSelectSet = true
  hov_label : ∀ i (h : i < s.labels.length) (h2 : i < s.items.length),
    s.labels[i].visible = true ↔ s.hoveredRef = some s.items[i].ref
  hov_item_emis : ∀ i (h : i < s.items.length),
    s.items[i].emissiveIntensity =
      (if s.hoveredRef = some s.items[i].ref then (0.5 : ℚ) else (0.1 : ℚ))
  hov_item_id : ∀ i (h : i < s.items.length),
    s.hoveredRef = some s.items[i].ref → s.items[i].menuItemId ≠ ""
  hov_toggle_emis : ∀ t, s.centerToggle = some t →
    t.emissiveIntensity = (if s.hoveredRef = some t.ref then (0.6 : ℚ) else (0.2 : ℚ))

/-- Rational 3-vector used for the heap model of `THREE.Vector3` objects owned
by `ExocentricCamera` (the aliasing claims do not depend on the numeric type,
and exact rationals keep the model executable). -/
structure QVec where
  x : ℚ
  y : ℚ
  z : ℚ
deriving DecidableEq

/-- A heap of vector objects addressed by allocation number. -/
def HeapV : Type := ℕ → QVec

/-- Write to one heap cell — the effect of mutating a `THREE.Vector3` in
place. -/
def heapWrite (h : HeapV) (r : ℕ) (v : QVec) : HeapV :=
  fun i => if i = r then v else h i

/-- The vector objects owned by an `ExocentricCamera` instance: the stored
anchor `userPosition` and `userDirection` and the ghost group's `position`,
plus the allocation counter. -/
structure ExoMem where
  posRef : ℕ
  dirRef : ℕ
  ghostRef : ℕ
  nextAlloc : ℕ

/-- Well-formedness: the three owned objects are distinct and allocated. -/
def exoMemWF (e : ExoMem) : Prop :=
  e.posRef < e.nextAlloc ∧ e.dirRef < e.nextAlloc ∧ e.ghostRef < e.nextAlloc ∧
  e.posRef ≠ e.dirRef ∧ e.posRef ≠ e.ghostRef ∧ e.dirRef ≠ e.ghostRef

instance (e : ExoMem) : Decidable (exoMemWF e) := by unfold exoMemWF; infer_instance

/-- `ExocentricCamera.getUserPosition()`: `return this.userPosition.clone()` —
allocates a fresh vector holding a copy of the anchor value and returns its
reference. -/
def getUserPosition (e : ExoMem) (h : HeapV) : ℕ × ExoMem × HeapV :=
  (e.nextAlloc, { e with nextAlloc := e.nextAlloc + 1 },
   heapWrite h e.nextAlloc (h e.posRef))

/-- `ExocentricCamera.getUserDirection()`: `return this.userDirection.clone()`. -/
def getUserDirection (e : ExoMem) (h : HeapV) : ℕ × ExoMem × HeapV :=
  (e.nextAlloc, { e with nextAlloc := e.nextAlloc + 1 },
   heapWrite h e.nextAlloc (h e.dirRef))

/-- Conclusion of claim C10 at controller memory `e`, heap `h` and mutation
value `v`: both getters return fresh copies, and mutating a returned vector
changes neither the stored anchor, nor the ghost placement, nor the results of
later calls. -/
def c10Concl (e : ExoMem) (h : HeapV) (v : QVec) : Prop :=
  let pr := getUserPosition e h
  let hm := heapWrite pr.2.2 pr.1 v
  (pr.2.2 pr.1 = h e.posRef) ∧
  (pr.1 ≠ pr.2.1.posRef ∧ pr.1 ≠ pr.2.1.dirRef ∧ pr.1 ≠ pr.2.1.ghostRef) ∧
  (hm pr.2.1.posRef = h e.posRef) ∧
  (hm pr.2.1.dirRef = h e.dirRef) ∧
  (hm pr.2.1.ghostRef = h e.ghostRef) ∧
  ((getUserPosition pr.2.1 hm).2.2 (getUserPosition pr.2.1 hm).1 = h e.posRef) ∧
  ((getUserDirection pr.2.1 hm).2.2 (getUserDirection pr.2.1 hm).1 = h e.dirRef) ∧
  exoMemWF pr.2.1 ∧
  (let dr := getUserDirection e h
   let hd := heapWrite dr.2.2 dr.1 v
   (dr.2.2 dr.1 = h e.dirRef) ∧
   (hd dr.2.1.posRef = h e.posRef) ∧
   (hd dr.2.1.dirRef = h e.dirRef) ∧
   (hd dr.2.1.ghostRef = h e.ghostRef))

/-- Concrete controller memory for the C10 witness. -/
def exoMemW : ExoMem := { posRef := 0, dirRef := 1, ghostRef := 2, nextAlloc := 3 }

/-- Concrete heap for the C10 witness. -/
def heapW : HeapV := fun _ => ⟨0, 0, 0⟩

/-- Concrete mutation value for the C10 witness. -/
def qvecW : QVec := ⟨1, 2, 3⟩

/-- Extract the state from a successful menu run (used to name concrete
reachable states in witnesses; the error branch is never exercised). -/
def menuStateOf (e : Except String MenuState) : MenuState :=
  match e with
  | .ok s => s
  | .error _ => menuInit

/-- Two-item category used by witnesses. -/
def catFood : DishMenuCategory :=
  { id := "food", label := "Food"
    items := [{ id := "pizza", label := "Pizza", url := some ("https://pizza") },
              { id := "soup", label := "Soup", url := none }] }

/-- Operation list producing a visible one-category menu for witnesses. -/
def opsFood : List MenuOp := [.setCategories [catFood], .showOp]

/-- The reachable witness state: visible menu with the `catFood` items. -/
def stateFood : MenuState := menuStateOf (runMenuOps menuInit opsFood)

/-- Category whose single item has the empty string as id — the JavaScript
falsy value that defeats the `if (item.userData.menuItemId)` checks. -/
def catEmptyId : DishMenuCategory :=
  { id := "c", label := "C", items := [{ id := "", label := "Ghost", url := none }] }

/-- Operation list producing the counterexample state for claims C5 and C9. -/
def opsEmptyId : List MenuOp := [.setCategories [catEmptyId], .showOp]

/-- Reachable visible menu whose only item has id `""`. -/
def stateEmptyId : MenuState := menuStateOf (runMenuOps menuInit opsEmptyId)

/-- Conclusion of (amended) claim C5 for a `checkInteraction` call with
raycast outcome `hit` on state `s`. -/
def c5Concl (s : MenuState) (hit : Option ℕ) : Prop :=
  let s2 := (checkInteraction hit s).1
  let ret := (checkInteraction hit s).2
  (∀ i j (hi : i < s2.labels.length) (hj : j < s2.labels.length),
      (s2.labels[i]).visible = true → (s2.labels[j]).visible = true → i = j) ∧
  (∀ i j (hi : i < (allInteractable s2).length) (hj : j < (allInteractable s2).length),
      emphasized ((allInteractable s2)[i]) = true →
      emphasized ((allInteractable s2)[j]) = true → i = j) ∧
  (∀ id, ret = some id → id ≠ "__toggle__" →
      ∃ i, ∃ (hi : i < s2.items.length) (hl : i < s2.labels.length),
        (s2.items[i]).menuItemId = id ∧ (s2.labels[i]).visible = true ∧
        ∀ j (hj : j < s2.labels.length), (s2.labels[j]).visible = true → j = i) ∧
  (ret = none →
      (∀ l ∈ s2.labels, l.visible = false) ∧
      (∀ m ∈ s2.items, m.emissiveIntensity = (0.1 : ℚ)) ∧
      (∀ t, s2.centerToggle = some t → t.emissiveIntensity = (0.2 : ℚ)))

/-- Conclusion of claim C8 at state `s`. -/
def c8Concl (s : MenuState) : Prop :=
  s.labels.length = s.items.length ∧
  (∀ i (hi : i < s.items.length) (hl : i < s.labels.length)
      (hc : i < (currentItems s).length),
      (s.items[i]).menuItemId = ((currentItems s)[i]).id ∧
      (s.labels[i]).text = ((currentItems s)[i]).label ∧
      (s.items[i]).url = ((currentItems s)[i]).url) ∧
  (∀ r i, indexOfRef s.items r = some i → i < s.labels.length)

/-- Conclusion of (amended) claim C9 at state `s`. -/
def c9Concl (s : MenuState) : Prop :=
  (s.items ≠ [] → s.onSelectSet = true) ∧
  (∀ i obj, s.isVisible = true → (allInteractable s)[i]? = some obj →
      obj.isCategoryToggle = false → obj.menuItemId ≠ "" →
      handleClick (some i) s = .ok (hideMenu s, true, some (obj.menuItemId, obj.url)))

/-- Conclusion of claim C4 after `setCategories([], cb)` on state `s` followed
by the post-operations `ops`: nothing raises, `checkInteraction` reports no
hit, `handleClick` consumes nothing and invokes no callback, `update` is a
no-op on the modelled state. -/
def c4Concl (s : MenuState) (ops : List MenuOp) : Prop :=
  ∃ s0, setCategoriesOp [] s = .ok s0 ∧
  ∃ s1, runMenuOps s0 ops = .ok s1 ∧
    (∀ hit, (checkInteraction hit s1).2 = none) ∧
    (∀ hit, ∃ s2, handleClick hit s1 = .ok (s2, false, none)) ∧
    runMenuOp s1 .update = .ok s1

/-- Post-operation list used by the C4 witness. -/
def opsPostW : List MenuOp := [.update, .check (some 0), .click (some 0), .check none]

/-- Conclusion of claim C6: after a `mouseleave`, followed by any events that
are not drag-starting, neither controller is dragging (nor panning, for the
egocentric one). -/
def c6Concl (b : BryceIO) (e : ExoState) (es fs : List MouseEvt) : Prop :=
  (bryceRun (bryceStep b .leave) es).isDragging = false ∧
  (bryceRun (bryceStep b .leave) es).isPanning = false ∧
  (exoRun (exoStep e .leave) fs).isDragging = false

/-- Bryce-side event list for the C6 witness. -/
def esW : List MouseEvt := [.move 3 4, .up, .wheel 2, .move 5 6]

/-- Exo-side event list for the C6 witness. -/
def fsW : List MouseEvt := [.wheel 1, .move 7 8, .up]

/-- Conclusion of claim C7 for a `jumpToView('top')` call on state `s`. -/
def c7Concl (s : CameraState) : Prop :=
  (bryceJumpToView .top s).phi = 0.01 ∧
  0 < (bryceJumpToView .top s).phi ∧
  (bryceCameraPos (bryceJumpToView .top s)).y = s.target.y + s.radius * Real.cos 0.01 ∧
  |(bryceCameraPos (bryceJumpToView .top s)).y - (s.target.y + s.radius)| ≤ s.radius * 0.0001

/-- Bounds maintained by every egocentric operation sequence (the amended C2
invariant: `0.01` is the `jumpToView('top')` epsilon, below the orbit clamp's
`minPhi = 0.1`). -/
def c2Bounds (s : CameraState) : Prop :=
  0.01 ≤ s.phi ∧ s.phi ≤ bryceMaxPhi ∧
  bryceMinRadius ≤ s.radius ∧ s.radius ≤ bryceMaxRadius

/-- Camera position for the C3 counterexample: eye `(0,3,4)` looking at the
origin, a pose in which the camera's up basis vector is `(0, 4/5, -3/5)`,
visibly different from the world up axis. -/
def c3CamPos : Vec3 := ⟨0, 3, 4⟩

/-- Look target for the C3 counterexample. -/
def c3CamLook : Vec3 := ⟨0, 0, 0⟩

/-- The compiled file ends here for now. -/
def specProofFileMarker : Unit := ()

/-! Component lemmas for `Vec3`. -/

@[simp] theorem Vec3.add_x (a b : Vec3) : (a + b).x = a.x + b.x := rfl

@[simp] theorem Vec3.add_y (a b : Vec3) : (a + b).y = a.y + b.y := rfl

@[simp] theorem Vec3.add_z (a b : Vec3) : (a + b).z = a.z + b.z := rfl

@[simp] theorem Vec3.sub_x (a b : Vec3) : (a - b).x = a.x - b.x := rfl

@[simp] theorem Vec3.sub_y (a b : Vec3) : (a - b).y = a.y - b.y := rfl

@[simp] theorem Vec3.sub_z (a b : Vec3) : (a - b).z = a.z - b.z := rfl

@[simp] theorem Vec3.smul_x (c : ℝ) (a : Vec3) : (c • a).x = c * a.x := rfl

@[simp] theorem Vec3.smul_y (c : ℝ) (a : Vec3) : (c • a).y = c * a.y := rfl

@[simp] theorem Vec3.smul_z (c : ℝ) (a : Vec3) : (c • a).z = c * a.z := rfl

@[simp] theorem Vec3.dot_mk (a b c d e f : ℝ) :
    Vec3.dot ⟨a, b, c⟩ ⟨d, e, f⟩ = a * d + b * e + c * f := rfl

@[simp] theorem Vec3.cross_mk (a b c d e f : ℝ) :
    Vec3.cross ⟨a, b, c⟩ ⟨d, e, f⟩ = ⟨b * f - c * e, c * d - a * f, a * e - b * d⟩ := rfl

/-! Claim C2: range invariants of the egocentric controller. -/

theorem c2Bounds_step (s : CameraState) (op : CamOp) (h : c2Bounds s) :
    c2Bounds (applyCamOp s op) := by
  have hpi : (3.141592 : ℝ) < Real.pi := Real.pi_gt_d6
  obtain ⟨h1, h2, h3, h4⟩ := h
  cases op with
  | orbit dx dy =>
    refine ⟨?_, ?_, h3, h4⟩
    · exact le_trans (by norm_num [bryceMinPhi]) (le_max_left _ _)
    · exact max_le (by simp only [bryceMinPhi, bryceMaxPhi]; linarith) (min_le_left _ _)
  | pan dx dy => exact ⟨h1, h2, h3, h4⟩
  | dolly d =>
    refine ⟨h1, h2, ?_, ?_⟩
    · exact le_max_left _ _
    · exact max_le (by norm_num [bryceMinRadius, bryceMaxRadius]) (min_le_left _ _)
  | jump v =>
    cases v with
    | top =>
      refine ⟨by norm_num [applyCamOp, bryceJumpToView], ?_, h3, h4⟩
      show (0.01 : ℝ) ≤ bryceMaxPhi
      simp only [bryceMaxPhi]; linarith
    | front =>
      refine ⟨?_, ?_, h3, h4⟩
      · show (0.01 : ℝ) ≤ Real.pi / 2; linarith
      · show Real.pi / 2 ≤ bryceMaxPhi; simp only [bryceMaxPhi]; linarith
    | side =>
      refine ⟨?_, ?_, h3, h4⟩
      · show (0.01 : ℝ) ≤ Real.pi / 2; linarith
      · show Real.pi / 2 ≤ bryceMaxPhi; simp only [bryceMaxPhi]; linarith
    | perspective =>
      refine ⟨?_, ?_, h3, h4⟩
      · show (0.01 : ℝ) ≤ Real.pi / 4; linarith
      · show Real.pi / 4 ≤ bryceMaxPhi; simp only [bryceMaxPhi]; linarith

theorem c2Bounds_run (ops : List CamOp) :
    ∀ s : CameraState, c2Bounds s → c2Bounds (applyCamOps s ops) := by
  induction ops with
  | nil => exact fun s h => h
  | cons op ops ih =>
    intro s h
    exact ih (applyCamOp s op) (c2Bounds_step s op h)

theorem c2Bounds_default : c2Bounds bryceDefault := by
  have hpi : (3.141592 : ℝ) < Real.pi := Real.pi_gt_d6
  refine ⟨?_, ?_, ?_, ?_⟩
  · show (0.01 : ℝ) ≤ Real.pi / 4; linarith
  · show Real.pi / 4 ≤ bryceMaxPhi; simp only [bryceMaxPhi]; linarith
  · show bryceMinRadius ≤ (17 : ℝ); norm_num [bryceMinRadius]
  · show (17 : ℝ) ≤ bryceMaxRadius; norm_num [bryceMaxRadius]

/-- C2 (amended): for every sequence of orbit/pan/dolly/jumpToView operations
applied from the default state, the polar angle stays in `[0.01, maxPhi]` and
the radius in `[minRadius, maxRadius]`.  (The claim's lower bound `minPhi` is
violated by `jumpToView('top')`, see the counterexample.) -/
theorem c2_orbit_radius_invariant (ops : List CamOp) :
    c2Bounds (applyCamOps bryceDefault ops) :=
  c2Bounds_run ops bryceDefault c2Bounds_default

/-- C2 counterexample: the single-operation sequence `jumpToView('top')` from
the default state leaves the polar angle at `0.01`, strictly below
`minPolar = minPhi = 0.1`, so the claimed invariant
`polar ∈ [minPolar, maxPolar]` fails. -/
theorem c2_counterexample :
    ¬ bryceMinPhi ≤ (applyCamOps bryceDefault [CamOp.jump ViewName.top]).phi := by
  show ¬ bryceMinPhi ≤ (bryceJumpToView ViewName.top bryceDefault).phi
  norm_num [bryceJumpToView, bryceMinPhi]

/-! Claim C7: the `top` view preset. -/

/-- C7: `jumpToView('top')` sets the polar angle to the epsilon `0.01` — which
is strictly positive, never exactly `0` — and the derived camera position's
y-component is `target.y + radius·cos 0.01`, within `radius·0.0001` of
`target.y + radius`. -/
theorem c7_jump_top (s : CameraState) (h : 0 ≤ s.radius) : c7Concl s := by
  have hphi : (bryceJumpToView .top s).phi = 0.01 := rfl
  have hy : (bryceCameraPos (bryceJumpToView .top s)).y
      = s.target.y + s.radius * Real.cos 0.01 := by
    simp [bryceCameraPos, bryceJumpToView, sphericalOffset]
  have habs : |(0.01 : ℝ)| = 0.01 := abs_of_nonneg (by norm_num)
  have hb := Real.cos_bound (x := 0.01) (by rw [habs]; norm_num)
  rw [habs] at hb
  have hb1 := (abs_le.mp hb).1
  have hlow : (1 : ℝ) - 0.0001 ≤ Real.cos 0.01 := by norm_num at hb1 ⊢; linarith
  have hcos1 : Real.cos 0.01 ≤ 1 := Real.cos_le_one _
  refine ⟨hphi, by rw [hphi]; norm_num, hy, ?_⟩
  have hyeq : (bryceCameraPos (bryceJumpToView .top s)).y - (s.target.y + s.radius)
      = s.radius * (Real.cos 0.01 - 1) := by rw [hy]; ring
  rw [hyeq, abs_mul, abs_of_nonneg h, abs_of_nonpos (by linarith : Real.cos 0.01 - 1 ≤ 0)]
  have hsmall : -(Real.cos 0.01 - 1) ≤ 0.0001 := by linarith
  exact mul_le_mul_of_nonneg_left hsmall h

/-- C7 witness at the default state. -/
theorem c7_jump_top_witness : 0 ≤ bryceDefault.radius ∧ c7Concl bryceDefault :=
  ⟨by norm_num [bryceDefault], c7_jump_top bryceDefault (by norm_num [bryceDefault])⟩

/-! Claim C3: the body-locked position recomputed by `DishMenu3D.update()`. -/

theorem sqrt_twentyfive : Real.sqrt 25 = 5 := by
  rw [show (25 : ℝ) = 5 ^ 2 by norm_num]
  exact Real.sqrt_sq (by norm_num)

theorem sqrt_sixteen_div : Real.sqrt (16 / 25) = 4 / 5 := by
  rw [show (16 / 25 : ℝ) = (4 / 5) ^ 2 by norm_num]
  exact Real.sqrt_sq (by norm_num)

@[ext] theorem Vec3.ext_xyz {a b : Vec3}
    (hx : a.x = b.x) (hy : a.y = b.y) (hz : a.z = b.z) : a = b := by
  cases a; cases b; simp_all

theorem c3_forward_value : cameraForward c3CamPos c3CamLook = ⟨0, -(3 / 5), -(4 / 5)⟩ := by
  have hd : Real.sqrt (Vec3.dot (c3CamLook - c3CamPos) (c3CamLook - c3CamPos)) = 5 := by
    rw [show Vec3.dot (c3CamLook - c3CamPos) (c3CamLook - c3CamPos) = 25 by
          norm_num [Vec3.dot, c3CamPos, c3CamLook]]
    exact sqrt_twentyfive
  simp only [cameraForward, Vec3.normalize, Vec3.len, hd]
  ext <;> norm_num [c3CamPos, c3CamLook]

theorem c3_up_basis_value : lookAtY c3CamPos c3CamLook worldUp = ⟨0, 4 / 5, -(3 / 5)⟩ := by
  have hz : lookAtZ c3CamPos c3CamLook = ⟨0, 3 / 5, 4 / 5⟩ := by
    have hd : Real.sqrt (Vec3.dot (c3CamPos - c3CamLook) (c3CamPos - c3CamLook)) = 5 := by
      rw [show Vec3.dot (c3CamPos - c3CamLook) (c3CamPos - c3CamLook) = 25 by
            norm_num [Vec3.dot, c3CamPos, c3CamLook]]
      exact sqrt_twentyfive
    simp only [lookAtZ, Vec3.normalize, Vec3.len, hd]
    ext <;> norm_num [c3CamPos, c3CamLook]
  have hcr : worldUp.cross (lookAtZ c3CamPos c3CamLook) = ⟨4 / 5, 0, 0⟩ := by
    rw [hz]
    ext <;> norm_num [worldUp, Vec3.cross]
  have hx : lookAtX c3CamPos c3CamLook worldUp = ⟨1, 0, 0⟩ := by
    have hd : Real.sqrt (Vec3.dot (⟨4 / 5, 0, 0⟩ : Vec3) ⟨4 / 5, 0, 0⟩) = 4 / 5 := by
      rw [show Vec3.dot (⟨4 / 5, 0, 0⟩ : Vec3) ⟨4 / 5, 0, 0⟩ = 16 / 25 by
            norm_num [Vec3.dot]]
      exact sqrt_sixteen_div
    simp only [lookAtX, hcr, Vec3.normalize, Vec3.len, hd]
    ext <;> norm_num
  simp only [lookAtY, hz, hx]
  ext <;> norm_num [Vec3.cross]

/-- C3 counterexample: at the camera pose with eye `(0,3,4)` looking at the
origin (up hint `(0,1,0)`), the group position computed by `update()` differs
from `cameraPosition + forwardOffset·cameraForward + verticalOffset·cameraUp`
with `cameraUp` the camera's up basis vector: the y-components are `1.3`
(code, world-axis offset) versus `1.46` (claim). -/
theorem c3_counterexample :
    dishUpdateGroupPos true c3CamPos (cameraForward c3CamPos c3CamLook) ⟨0, 0, 0⟩
      ≠ c3CamPos + (1.5 : ℝ) • cameraForward c3CamPos c3CamLook
        + (-0.8 : ℝ) • lookAtY c3CamPos c3CamLook worldUp := by
  rw [c3_forward_value, c3_up_basis_value]
  intro h
  have hy := congrArg Vec3.y h
  simp only [dishUpdateGroupPos, if_pos, dishGroupPos, dishOffsetY, dishOffsetZ,
    c3CamPos, Vec3.add_y, Vec3.smul_y] at hy
  norm_num at hy

/-- C3 (amended): whenever `update()` runs on a visible menu, the widget
group's world position is
`cameraPosition + 1.5·cameraForward + (-0.8)·worldUp` — the vertical offset is
applied along the world up axis `(0,1,0)`, not along the camera's up basis
vector. -/
theorem c3_body_locked_position (camPos camLook old : Vec3) :
    dishUpdateGroupPos true camPos (cameraForward camPos camLook) old
      = camPos + (1.5 : ℝ) • cameraForward camPos camLook + (-0.8 : ℝ) • worldUp := by
  show dishGroupPos camPos (cameraForward camPos camLook) = _
  simp only [dishGroupPos, dishOffsetY, dishOffsetZ, worldUp]
  cases cameraForward camPos camLook with
  | mk fx fy fz =>
    cases camPos with
    | mk px py pz =>
      show Vec3.mk _ _ _ = Vec3.mk _ _ _
      norm_num

/-! Claim C1: double mode toggle does not restore the camera pose. -/

/-- C1: from the initial egocentric state, `toggle(); toggle();` (egocentric →
exocentric → egocentric, no other input) leaves the shared camera's
y-coordinate exactly `radius·cos(π/3) + 1 = 2.5` above its pre-toggle value —
the pose is *not* restored, because `deactivate()` never touches the camera and
the mode switch applies no egocentric update.  Stated for every value of the
abstract `Math.atan2` (which only influences x and z). -/
theorem c1_mode_toggle_not_restoring (atan2 : ℝ → ℝ → ℝ) :
    (toggleExoMode atan2 (toggleExoMode atan2 initSystem)).camPos.y
        = initSystem.camPos.y + 5 / 2 ∧
    (toggleExoMode atan2 (toggleExoMode atan2 initSystem)).camPos.y
        ≠ initSystem.camPos.y := by
  have hy : (toggleExoMode atan2 (toggleExoMode atan2 initSystem)).camPos.y
      = initSystem.camPos.y + 5 / 2 := by
    simp only [toggleExoMode, initSystem, exoActivate, exoDeactivate, exoCameraPos]
    norm_num [Real.cos_pi_div_three]
    ring
  exact ⟨hy, by rw [hy]; intro h; linarith⟩

/-! Claim C6: pointer-leave always clears the dragging state. -/

theorem bryceStep_nodown (b : BryceIO) (ev : MouseEvt) (hev : isDownEvt ev = false)
    (hd : b.isDragging = false) (hp : b.isPanning = false) :
    (bryceStep b ev).isDragging = false ∧ (bryceStep b ev).isPanning = false := by
  cases ev <;> simp_all [bryceStep, isDownEvt]

theorem bryceRun_nodown (es : List MouseEvt) :
    ∀ b : BryceIO, es.all (fun ev => !(isDownEvt ev)) = true →
      b.isDragging = false → b.isPanning = false →
      (bryceRun b es).isDragging = false ∧ (bryceRun b es).isPanning = false := by
  induction es with
  | nil => exact fun b _ hd hp => ⟨hd, hp⟩
  | cons ev es ih =>
    intro b hall hd hp
    rw [List.all_cons, Bool.and_eq_true] at hall
    have hev : isDownEvt ev = false := by
      have := hall.1
      simpa using this
    obtain ⟨hd2, hp2⟩ := bryceStep_nodown b ev hev hd hp
    exact ih (bryceStep b ev) hall.2 hd2 hp2

theorem exoStep_nodown (e : ExoState) (ev : MouseEvt) (hev : isDownEvt ev = false)
    (hd : e.isDragging = false) : (exoStep e ev).isDragging = false := by
  cases ev <;> simp_all [exoStep, isDownEvt]
  split <;> simp_all

theorem exoRun_nodown (fs : List MouseEvt) :
    ∀ e : ExoState, fs.all (fun ev => !(isDownEvt ev)) = true →
      e.isDragging = false → (exoRun e fs).isDragging = false := by
  induction fs with
  | nil => exact fun e _ hd => hd
  | cons ev fs ih =>
    intro e hall hd
    rw [List.all_cons, Bool.and_eq_true] at hall
    have hev : isDownEvt ev = false := by
      have := hall.1
      simpa using this
    exact ih (exoStep e ev) hall.2 (exoStep_nodown e ev hev hd)

/-- C6: in both camera controllers, after a `mouseleave` event (bound to the
same handler as `mouseup`), followed by any further events none of which starts
a drag, the egocentric controller's `isDragging` and `isPanning` and the
exocentric controller's `isDragging` are all `false` — a pointer leaving the
viewport can never leave a controller stuck dragging. -/
theorem c6_pointer_leave_clears_drag (b : BryceIO) (e : ExoState) (es fs : List MouseEvt)
    (hb : es.all (fun ev => !(isDownEvt ev)) = true)
    (hf : fs.all (fun ev => !(isDownEvt ev)) = true) : c6Concl b e es fs := by
  obtain ⟨h1, h2⟩ := bryceRun_nodown es (bryceStep b .leave) hb rfl rfl
  exact ⟨h1, h2, exoRun_nodown fs (exoStep e .leave) hf rfl⟩

/-- C6 witness: concrete controllers and event lists. -/
theorem c6_pointer_leave_clears_drag_witness :
    esW.all (fun ev => !(isDownEvt ev)) = true ∧
    fsW.all (fun ev => !(isDownEvt ev)) = true ∧
    c6Concl bryceInit exoInit esW fsW :=
  ⟨rfl, rfl, c6_pointer_leave_clears_drag bryceInit exoInit esW fsW rfl rfl⟩

/-! Claim C10: the anchor getters return fresh copies. -/

/-- C10: `getUserPosition()` and `getUserDirection()` return freshly allocated
copies of the stored anchor vectors; writing to a returned vector leaves the
stored anchor, the ghost placement and the results of all later calls
unchanged. -/
theorem c10_fresh_copies (e : ExoMem) (h : HeapV) (v : QVec) (hwf : exoMemWF e) :
    c10Concl e h v := by
  obtain ⟨h1, h2, h3, h4, h5, h6⟩ := hwf
  have n1 : e.posRef ≠ e.nextAlloc := by omega
  have n2 : e.dirRef ≠ e.nextAlloc := by omega
  have n3 : e.ghostRef ≠ e.nextAlloc := by omega
  have n4 : e.posRef ≠ e.nextAlloc + 1 := by omega
  have n5 : e.dirRef ≠ e.nextAlloc + 1 := by omega
  refine ⟨?_, ⟨?_, ?_, ?_⟩, ?_, ?_, ?_, ?_, ?_, ?_, ⟨?_, ?_, ?_, ?_⟩⟩ <;>
    simp [getUserPosition, getUserDirection, heapWrite, exoMemWF, n1, n2, n3, n4, n5] <;>
    omega

/-- C10 witness at a concrete memory, heap and mutation value. -/
theorem c10_fresh_copies_witness : exoMemWF exoMemW ∧ c10Concl exoMemW heapW qvecW :=
  ⟨by decide, c10_fresh_copies exoMemW heapW qvecW (by decide)⟩

/-! Helper lemmas for the dish-menu model. -/

theorem length_buildMeshes (b : ℕ) (ms : List DishMenuItem) :
    (buildMeshes b ms).length = ms.length := by
  induction ms generalizing b with
  | nil => rfl
  | cons m ms ih => simp [buildMeshes, ih]

theorem getElem_buildMeshes (b : ℕ) (ms : List DishMenuItem) (i : ℕ)
    (h : i < (buildMeshes b ms).length) (h2 : i < ms.length) :
    (buildMeshes b ms)[i] = mkMesh (b + i) ms[i] := by
  induction ms generalizing b i with
  | nil => simp at h2
  | cons m ms ih =>
    cases i with
    | zero => simp [buildMeshes]
    | succ j =>
      have hj : j < (buildMeshes (b + 1) ms).length := by
        simpa [buildMeshes] using h
      have hj2 : j < ms.length := by simpa using h2
      simp only [buildMeshes, List.getElem_cons_succ]
      rw [ih (b + 1) j hj hj2]
      congr 1
      omega

theorem mapRef_buildMeshes (b : ℕ) (ms : List DishMenuItem) :
    (buildMeshes b ms).map (·.ref) = List.range' b ms.length := by
  induction ms generalizing b with
  | nil => rfl
  | cons m ms ih => simp [buildMeshes, mkMesh, List.range'_succ, ih]

theorem nodup_buildMeshes (b : ℕ) (ms : List DishMenuItem) :
    ((buildMeshes b ms).map (·.ref)).Nodup := by
  rw [mapRef_buildMeshes]
  exact List.nodup_range' _ _

theorem mem_buildMeshes_props (b : ℕ) (ms : List DishMenuItem) (m : ItemMesh)
    (hm : m ∈ buildMeshes b ms) :
    m.isCategoryToggle = false ∧ b ≤ m.ref ∧ m.ref < b + ms.length ∧
    m.emissiveIntensity = (0.1 : ℚ) := by
  induction ms generalizing b with
  | nil => simp [buildMeshes] at hm
  | cons x ms ih =>
    simp only [buildMeshes, List.mem_cons] at hm
    rcases hm with rfl | hm
    · simp [mkMesh]
    · obtain ⟨ha, hb2, hc, hd⟩ := ih (b + 1) hm
      refine ⟨ha, by omega, ?_, hd⟩
      simp only [List.length_cons]
      omega

theorem length_setLabelVis (ls : List LabelSprite) (i : ℕ) (b : Bool) :
    (setLabelVis ls i b).length = ls.length := by
  induction ls generalizing i with
  | nil => rfl
  | cons l ls ih =>
    cases i with
    | zero => rfl
    | succ j => simp [setLabelVis, ih]

theorem getElem_setLabelVis (ls : List LabelSprite) (i : ℕ) (b : Bool) (j : ℕ)
    (h : j < (setLabelVis ls i b).length) (h2 : j < ls.length) :
    (setLabelVis ls i b)[j] = if j = i then ⟨(ls[j]).text, b⟩ else ls[j] := by
  induction ls generalizing i j with
  | nil => simp at h2
  | cons l ls ih =>
    cases i with
    | zero =>
      cases j with
      | zero => rfl
      | succ k =>
        simp only [setLabelVis, List.getElem_cons_succ]
        rw [if_neg (Nat.succ_ne_zero k)]
    | succ i2 =>
      cases j with
      | zero => simp [setLabelVis]
      | succ k =>
        have hk : k < (setLabelVis ls i2 b).length := by
          simpa [setLabelVis, length_setLabelVis] using h
        have hk2 : k < ls.length := by simpa using h2
        simp only [setLabelVis, List.getElem_cons_succ]
        rw [ih i2 k hk hk2]
        by_cases hki : k = i2 <;> simp [hki]

theorem indexOfRef_some (l : List ItemMesh) (r : ℕ) (i : ℕ)
    (h : indexOfRef l r = some i) : ∃ h2 : i < l.length, (l[i]).ref = r := by
  induction l generalizing i with
  | nil => simp [indexOfRef] at h
  | cons m l ih =>
    simp only [indexOfRef] at h
    by_cases hm : m.ref = r
    · rw [if_pos hm] at h
      obtain rfl : i = 0 := by simpa using h.symm
      exact ⟨by simp, hm⟩
    · rw [if_neg hm] at h
      rcases hrec : indexOfRef l r with _ | j
      · rw [hrec] at h; simp at h
      · rw [hrec] at h
        simp only [Option.map_some'] at h
        obtain rfl : j + 1 = i := by simpa using h
        obtain ⟨hj, hjr⟩ := ih j hrec
        exact ⟨by simpa using hj, by simpa using hjr⟩

theorem indexOfRef_none_iff (l : List ItemMesh) (r : ℕ) :
    indexOfRef l r = none ↔ ∀ m ∈ l, m.ref ≠ r := by
  induction l with
  | nil => simp [indexOfRef]
  | cons m l ih =>
    simp only [indexOfRef, List.mem_cons]
    by_cases hm : m.ref = r
    · simp [hm]
    · rw [if_neg hm]
      constructor
      · intro h x hx
        rcases hx with rfl | hx
        · exact hm
        · have hnone : indexOfRef l r = none := by
            rcases hrec : indexOfRef l r with _ | j
            · rfl
            · rw [hrec] at h; simp at h
          exact (ih.mp hnone) x hx
      · intro hall
        have hnone : indexOfRef l r = none := ih.mpr (fun x hx => hall x (Or.inr hx))
        rw [hnone]
        rfl

theorem indexOfRef_of_getElem (l : List ItemMesh) (r : ℕ) (i : ℕ)
    (hnd : (l.map (·.ref)).Nodup) (h : i < l.length) (hr : (l[i]).ref = r) :
    indexOfRef l r = some i := by
  induction l generalizing i with
  | nil => simp at h
  | cons m l ih =>
    simp only [List.map_cons, List.nodup_cons] at hnd
    cases i with
    | zero =>
      simp only [List.getElem_cons_zero] at hr
      simp [indexOfRef, hr]
    | succ j =>
      have hj : j < l.length := by simpa using h
      simp only [List.getElem_cons_succ] at hr
      have hm : m.ref ≠ r := by
        intro hmr
        apply hnd.1
        rw [hmr, ← hr]
        exact List.mem_map_of_mem _ (List.getElem_mem hj)
      simp only [indexOfRef, if_neg hm, ih j hnd.2 hj hr, Option.map_some']

theorem indexOfRef_map_refpres (l : List ItemMesh) (r : ℕ) (f : ItemMesh → ItemMesh)
    (hf : ∀ m, (f m).ref = m.ref) : indexOfRef (l.map f) r = indexOfRef l r := by
  induction l with
  | nil => rfl
  | cons m l ih => simp [indexOfRef, hf, ih]

theorem nodup_ref_getElem_inj (l : List ItemMesh) (hnd : (l.map (·.ref)).Nodup)
    (i j : ℕ) (hi : i < l.length) (hj : j < l.length)
    (he : (l[i]).ref = (l[j]).ref) : i = j := by
  have hi2 : i < (l.map (·.ref)).length := by simpa using hi
  have hj2 : j < (l.map (·.ref)).length := by simpa using hj
  have : (l.map (·.ref))[i] = (l.map (·.ref))[j] := by
    simpa using he
  exact (List.Nodup.getElem_inj_iff hnd).mp this

theorem allInteractable_getElem_left (s : MenuState) (i : ℕ) (h : i < s.items.length) :
    (allInteractable s)[i]? = some (s.items[i]) := by
  unfold allInteractable
  rw [List.getElem?_append]
  simp [h, List.getElem?_eq_getElem]

theorem allInteractable_getElem_cases (s : MenuState) (i : ℕ) (obj : ItemMesh)
    (h : (allInteractable s)[i]? = some obj) :
    (∃ h2 : i < s.items.length, obj = s.items[i]) ∨
    (i = s.items.length ∧ s.centerToggle = some obj) := by
  unfold allInteractable at h
  rw [List.getElem?_append] at h
  by_cases hi : i < s.items.length
  · rw [if_pos hi, List.getElem?_eq_getElem hi] at h
    exact Or.inl ⟨hi, by simpa using h.symm⟩
  · rw [if_neg hi] at h
    rcases ht : s.centerToggle with _ | t
    · rw [ht] at h; simp at h
    · rw [ht] at h
      rcases hd : i - s.items.length with _ | k
      · rw [hd] at h
        simp only [List.getElem?_cons_zero] at h
        obtain rfl : t = obj := by simpa using h
        exact Or.inr ⟨by omega, rfl⟩
      · rw [hd] at h
        simp at h

theorem currentItems_congr (s s2 : MenuState) (hc : s2.categories = s.categories)
    (hi : s2.currentCategoryIndex = s.currentCategoryIndex) :
    currentItems s2 = currentItems s := by
  unfold currentItems
  rw [hc, hi]

theorem menuInit_inv : MenuInv menuInit := by
  refine
    { idx_lt := ?_, empty_items := ?_, empty_labels := ?_, empty_toggle := ?_
      len_items := ?_, len_labels := ?_, item_id := ?_, item_url := ?_
      item_not_toggle := ?_, label_text := ?_, refs_nodup := ?_, toggle_true := ?_
      toggle_fresh := ?_, toggle_cats := ?_, ref_lt := ?_, togref_lt := ?_
      hov_lt := ?_, on_sel := ?_, hov_label := ?_, hov_item_emis := ?_
      hov_item_id := ?_, hov_toggle_emis := ?_ } <;>
    simp [menuInit, currentItems]

theorem menuInv_fresh (s : MenuState) (ms : List DishMenuItem) (base : ℕ)
    (tog : Option ItemMesh) (tl : Option LabelSprite)
    (hcats : s.categories ≠ [])
    (hidx2 : s.currentCategoryIndex < s.categories.length)
    (hms : (s.categories[s.currentCategoryIndex]).items = ms)
    (hhov : ∀ r, s.hoveredRef = some r → r < s.nextRef)
    (hsel : s.onSelectSet = true)
    (hbase : s.nextRef ≤ base)
    (htog : tog = none ∨
      (tog = some { ref := s.nextRef, menuItemId := "", url := none,
                    isCategoryToggle := true, emissiveIntensity := (0.2 : ℚ) } ∧
       base = s.nextRef + 1 ∧ 1 < s.categories.length)) :
    MenuInv { s with items := buildMeshes base ms, labels := buildLabels ms,
                     centerToggle := tog, centerLabel := tl, nextRef := base + ms.length } := by
  have hget : s.categories[s.currentCategoryIndex]?
      = some (s.categories[s.currentCategoryIndex]) := List.getElem?_eq_getElem hidx2
  have hcur : currentItems { s with items := buildMeshes base ms, labels := buildLabels ms,
                                    centerToggle := tog, centerLabel := tl,
                                    nextRef := base + ms.length } = ms := by
    unfold currentItems
    dsimp only
    rw [hget]
    exact hms
  have hfresh : ∀ i (h : i < (buildMeshes base ms).length),
      ¬ s.hoveredRef = some ((buildMeshes base ms)[i]).ref := by
    intro i h habs
    have h3 := hhov _ habs
    have h4 := (mem_buildMeshes_props _ _ _ (List.getElem_mem h)).2.1
    omega
  refine
    { idx_lt := fun _ => hidx2
      empty_items := fun h => absurd h hcats
      empty_labels := fun h => absurd h hcats
      empty_toggle := fun h => absurd h hcats
      len_items := ?_, len_labels := ?_, item_id := ?_, item_url := ?_
      item_not_toggle := ?_, label_text := ?_, refs_nodup := ?_, toggle_true := ?_
      toggle_fresh := ?_, toggle_cats := ?_, ref_lt := ?_, togref_lt := ?_
      hov_lt := ?_, on_sel := fun _ => hsel
      hov_label := ?_, hov_item_emis := ?_, hov_item_id := ?_, hov_toggle_emis := ?_ }
  · rw [hcur]
    exact length_buildMeshes _ _
  · dsimp only
    simp [buildLabels, length_buildMeshes]
  · intro i h h2
    have hmsi := List.getElem_of_eq hcur h2
    rw [hmsi]
    dsimp only at h ⊢
    rw [getElem_buildMeshes base ms i h (by rwa [length_buildMeshes] at h)]
    rfl
  · intro i h h2
    have hmsi := List.getElem_of_eq hcur h2
    rw [hmsi]
    dsimp only at h ⊢
    rw [getElem_buildMeshes base ms i h (by rwa [length_buildMeshes] at h)]
    rfl
  · intro m hm
    exact (mem_buildMeshes_props _ _ _ hm).1
  · intro i h h2
    have hmsi := List.getElem_of_eq hcur h2
    rw [hmsi]
    dsimp only at h ⊢
    simp only [buildLabels]
    rw [List.getElem_map]
    rfl
  · exact nodup_buildMeshes _ _
  · intro t ht
    dsimp only at ht
    rcases htog with rfl | ⟨rfl, hb2, hl2⟩
    · simp at ht
    · obtain rfl : _ = t := by simpa using ht
      rfl
  · intro t ht m hm
    dsimp only at ht hm
    rcases htog with rfl | ⟨rfl, hb2, hl2⟩
    · simp at ht
    · obtain rfl : _ = t := by simpa using ht
      have := (mem_buildMeshes_props _ _ _ hm).2.1
      dsimp only
      omega
  · intro hne
    dsimp only at hne
    rcases htog with rfl | ⟨rfl, hb2, hl2⟩
    · simp at hne
    · exact hl2
  · intro m hm
    dsimp only at hm ⊢
    have h1 := (mem_buildMeshes_props _ _ _ hm).2.1
    have h2 := (mem_buildMeshes_props _ _ _ hm).2.2.1
    omega
  · intro t ht
    dsimp only at ht ⊢
    rcases htog with rfl | ⟨rfl, hb2, hl2⟩
    · simp at ht
    · obtain rfl : _ = t := by simpa using ht
      dsimp only
      have : 0 < ms.length ∨ 0 = ms.length ∨ True := by tauto
      omega
  · intro r hr
    dsimp only at hr ⊢
    have := hhov r hr
    omega
  · intro i h h2
    dsimp only at h h2 ⊢
    constructor
    · intro habs
      exfalso
      simp only [buildLabels] at habs
      rw [List.getElem_map] at habs
      simp [mkLabel] at habs
    · intro habs
      exact absurd habs (hfresh i h2)
  · intro i h
    dsimp only at h ⊢
    rw [if_neg (hfresh i h)]
    exact (mem_buildMeshes_props _ _ _ (List.getElem_mem h)).2.2.2
  · intro i h habs
    dsimp only at h habs
    exact absurd habs (hfresh i h)
  · intro t ht
    dsimp only at ht ⊢
    rcases htog with rfl | ⟨rfl, hb2, hl2⟩
    · simp at ht
    · obtain rfl : _ = t := by simpa using ht
      have hne : ¬ s.hoveredRef = some s.nextRef := by
        intro habs
        have := hhov _ habs
        omega
      rw [if_neg hne]

theorem updV_ref (r : ℕ) (v : ℚ) (m : ItemMesh) :
    (if m.ref = r then { m with emissiveIntensity := v } else m).ref = m.ref := by
  split <;> rfl

theorem updV_id (r : ℕ) (v : ℚ) (m : ItemMesh) :
    (if m.ref = r then { m with emissiveIntensity := v } else m).menuItemId = m.menuItemId := by
  split <;> rfl

theorem updV_url (r : ℕ) (v : ℚ) (m : ItemMesh) :
    (if m.ref = r then { m with emissiveIntensity := v } else m).url = m.url := by
  split <;> rfl

theorem updV_tog (r : ℕ) (v : ℚ) (m : ItemMesh) :
    (if m.ref = r then { m with emissiveIntensity := v } else m).isCategoryToggle
      = m.isCategoryToggle := by
  split <;> rfl

theorem updV_emis (r : ℕ) (v : ℚ) (m : ItemMesh) :
    (if m.ref = r then { m with emissiveIntensity := v } else m).emissiveIntensity
      = if m.ref = r then v else m.emissiveIntensity := by
  split <;> rfl

theorem mapRefs_updV (l : List ItemMesh) (r : ℕ) (v : ℚ) :
    ((l.map (fun m => if m.ref = r then { m with emissiveIntensity := v } else m)).map (·.ref))
      = l.map (·.ref) := by
  rw [List.map_map]
  exact List.map_congr_left (fun m _ => updV_ref r v m)

theorem updClear_ref (r : ℕ) (m : ItemMesh) :
    (if m.ref = r then
       { m with emissiveIntensity := if m.isCategoryToggle then (0.2 : ℚ) else (0.1 : ℚ) }
     else m).ref = m.ref := by
  split <;> rfl

theorem updClear_id (r : ℕ) (m : ItemMesh) :
    (if m.ref = r then
       { m with emissiveIntensity := if m.isCategoryToggle then (0.2 : ℚ) else (0.1 : ℚ) }
     else m).menuItemId = m.menuItemId := by
  split <;> rfl

theorem updClear_url (r : ℕ) (m : ItemMesh) :
    (if m.ref = r then
       { m with emissiveIntensity := if m.isCategoryToggle then (0.2 : ℚ) else (0.1 : ℚ) }
     else m).url = m.url := by
  split <;> rfl

theorem updClear_tog (r : ℕ) (m : ItemMesh) :
    (if m.ref = r then
       { m with emissiveIntensity := if m.isCategoryToggle then (0.2 : ℚ) else (0.1 : ℚ) }
     else m).isCategoryToggle = m.isCategoryToggle := by
  split <;> rfl

theorem updClear_emis (r : ℕ) (m : ItemMesh) :
    (if m.ref = r then
       { m with emissiveIntensity := if m.isCategoryToggle then (0.2 : ℚ) else (0.1 : ℚ) }
     else m).emissiveIntensity
      = if m.ref = r then (if m.isCategoryToggle then (0.2 : ℚ) else (0.1 : ℚ))
        else m.emissiveIntensity := by
  split <;> rfl

theorem mapRefs_updClear (l : List ItemMesh) (r : ℕ) :
    ((l.map (fun m => if m.ref = r then
        { m with emissiveIntensity := if m.isCategoryToggle then (0.2 : ℚ) else (0.1 : ℚ) }
      else m)).map (·.ref)) = l.map (·.ref) := by
  rw [List.map_map]
  exact List.map_congr_left (fun m _ => updClear_ref r m)

theorem rebuildItems_ok (s : MenuState)
    (hidx : s.categories = [] ∨ s.currentCategoryIndex < s.categories.length)
    (hhov : ∀ r, s.hoveredRef = some r → r < s.nextRef)
    (hsel : s.categories ≠ [] → s.onSelectSet = true) :
    ∃ s2, rebuildItems s = .ok s2 ∧ MenuInv s2 ∧
      s2.categories = s.categories ∧
      s2.currentCategoryIndex = s.currentCategoryIndex ∧
      s2.isVisible = s.isVisible ∧
      s2.onSelectSet = s.onSelectSet ∧
      s2.hoveredRef = s.hoveredRef ∧
      s.nextRef ≤ s2.nextRef := by
  by_cases hc : s.categories.isEmpty
  · have hcats : s.categories = [] := by simpa [List.isEmpty_iff] using hc
    refine ⟨{ s with items := [], labels := [], centerToggle := none, centerLabel := none },
      by simp [rebuildItems, hc], ?_, rfl, rfl, rfl, rfl, rfl, le_refl _⟩
    refine
      { idx_lt := fun hne => absurd hcats hne
        empty_items := fun _ => rfl
        empty_labels := fun _ => rfl
        empty_toggle := fun _ => rfl
        len_items := by simp [currentItems, hcats]
        len_labels := rfl
        item_id := by intro i h h2; simp at h
        item_url := by intro i h h2; simp at h
        item_not_toggle := by intro m hm; simp at hm
        label_text := by intro i h h2; simp at h
        refs_nodup := by simp
        toggle_true := by intro t ht; simp at ht
        toggle_fresh := by intro t ht; simp at ht
        toggle_cats := by intro hne; simp at hne
        ref_lt := by intro m hm; simp at hm
        togref_lt := by intro t ht; simp at ht
        hov_lt := hhov
        on_sel := fun hne => absurd hcats hne
        hov_label := by intro i h h2; simp at h
        hov_item_emis := by intro i h; simp at h
        hov_item_id := by intro i h; simp at h
        hov_toggle_emis := by intro t ht; simp at ht }
  · have hcats : s.categories ≠ [] := by simpa [List.isEmpty_iff] using hc
    have hidx2 : s.currentCategoryIndex < s.categories.length := hidx.resolve_left hcats
    have hget : s.categories[s.currentCategoryIndex]?
        = some (s.categories[s.currentCategoryIndex]) := List.getElem?_eq_getElem hidx2
    by_cases hlen : 1 < s.categories.length
    · refine ⟨_, ?_,
        menuInv_fresh s (s.categories[s.currentCategoryIndex]).items (s.nextRef + 1)
          (some { ref := s.nextRef, menuItemId := "", url := none,
                  isCategoryToggle := true, emissiveIntensity := (0.2 : ℚ) })
          (some { text := (s.categories[s.currentCategoryIndex]).label, visible := true })
          hcats hidx2 rfl hhov (hsel hcats) (by omega) (Or.inr ⟨rfl, rfl, hlen⟩),
        rfl, rfl, rfl, rfl, rfl, by dsimp only; omega⟩
      simp only [rebuildItems]
      rw [if_neg hc, hget]
      dsimp only
      rw [if_pos hlen]
    · refine ⟨_, ?_,
        menuInv_fresh s (s.categories[s.currentCategoryIndex]).items s.nextRef
          none none hcats hidx2 rfl hhov (hsel hcats) (le_refl _) (Or.inl rfl),
        rfl, rfl, rfl, rfl, rfl, by dsimp only; omega⟩
      simp only [rebuildItems]
      rw [if_neg hc, hget]
      dsimp only
      rw [if_neg hlen]

theorem menuInv_setVisible (s : MenuState) (b : Bool) (h : MenuInv s) :
    MenuInv { s with isVisible := b } :=
  { idx_lt := h.idx_lt, empty_items := h.empty_items, empty_labels := h.empty_labels
    empty_toggle := h.empty_toggle, len_items := h.len_items, len_labels := h.len_labels
    item_id := h.item_id, item_url := h.item_url, item_not_toggle := h.item_not_toggle
    label_text := h.label_text, refs_nodup := h.refs_nodup, toggle_true := h.toggle_true
    toggle_fresh := h.toggle_fresh, toggle_cats := h.toggle_cats, ref_lt := h.ref_lt
    togref_lt := h.togref_lt, hov_lt := h.hov_lt, on_sel := h.on_sel
    hov_label := h.hov_label, hov_item_emis := h.hov_item_emis
    hov_item_id := h.hov_item_id, hov_toggle_emis := h.hov_toggle_emis }

theorem optMapClear_elim (o : Option ItemMesh) (r : ℕ) (t : ItemMesh)
    (h : (o.map (fun (t : ItemMesh) =>
        if t.ref = r then
          { t with emissiveIntensity := if t.isCategoryToggle then (0.2 : ℚ) else (0.1 : ℚ) }
        else t)) = some t) :
    ∃ t0, o = some t0 ∧
      t = (if t0.ref = r then
            { t0 with emissiveIntensity := if t0.isCategoryToggle then (0.2 : ℚ) else (0.1 : ℚ) }
           else t0) := by
  cases o with
  | none => simp at h
  | some t0 => exact ⟨t0, rfl, by simpa using h.symm⟩

theorem clearHover_spec (s : MenuState) (hInv : MenuInv s) :
    MenuInv (clearHover s) ∧
    (clearHover s).hoveredRef = none ∧
    (clearHover s).categories = s.categories ∧
    (clearHover s).currentCategoryIndex = s.currentCategoryIndex ∧
    (clearHover s).isVisible = s.isVisible ∧
    (clearHover s).onSelectSet = s.onSelectSet ∧
    (clearHover s).nextRef = s.nextRef ∧
    (clearHover s).items.length = s.items.length ∧
    (∀ i (h : i < (clearHover s).items.length) (h2 : i < s.items.length),
        ((clearHover s).items[i]).ref = (s.items[i]).ref ∧
        ((clearHover s).items[i]).menuItemId = (s.items[i]).menuItemId) ∧
    (clearHover s).centerToggle.map (·.ref) = s.centerToggle.map (·.ref) := by
  rcases hh : s.hoveredRef with _ | r
  · have hcs : clearHover s = s := by
      unfold clearHover
      rw [hh]
    rw [hcs]
    exact ⟨hInv, hh, rfl, rfl, rfl, rfl, rfl, rfl, fun i h h2 => ⟨rfl, rfl⟩, rfl⟩
  · have hnodup := hInv.refs_nodup
    have hlab : ∀ j (hj : j < s.labels.length) (hj2 : j < s.items.length),
        (s.labels[j]).visible = true ↔ r = (s.items[j]).ref := by
      intro j hj hj2
      rw [hInv.hov_label j hj hj2, hh]
      constructor
      · intro hx; exact (Option.some.injEq _ _).mp hx
      · intro hx; rw [hx]
    -- the emissive value of an item after the reset map
    have hitemv : ∀ i (hi : i < s.items.length),
        (if (s.items[i]).ref = r then
           { s.items[i] with emissiveIntensity :=
               if (s.items[i]).isCategoryToggle then (0.2 : ℚ) else (0.1 : ℚ) }
         else s.items[i]).emissiveIntensity = (0.1 : ℚ) := by
      intro i hi
      rw [updClear_emis]
      by_cases hmr : (s.items[i]).ref = r
      · rw [if_pos hmr, hInv.item_not_toggle (s.items[i]) (List.getElem_mem hi)]
        rfl
      · rw [if_neg hmr, hInv.hov_item_emis i hi, hh,
          if_neg (fun hcon => hmr ((Option.some.injEq _ _).mp hcon).symm)]
    -- the emissive value of the toggle after the reset map
    have htogv : ∀ t0, s.centerToggle = some t0 →
        (if t0.ref = r then
           { t0 with emissiveIntensity :=
               if t0.isCategoryToggle then (0.2 : ℚ) else (0.1 : ℚ) }
         else t0).emissiveIntensity = (0.2 : ℚ) := by
      intro t0 ht0
      rw [updClear_emis]
      by_cases htr : t0.ref = r
      · rw [if_pos htr, hInv.toggle_true t0 ht0]
        rfl
      · rw [if_neg htr, hInv.hov_toggle_emis t0 ht0, hh,
          if_neg (fun hcon => htr ((Option.some.injEq _ _).mp hcon).symm)]
    rcases hio : indexOfRef s.items r with _ | i0
    · have hnone := (indexOfRef_none_iff s.items r).mp hio
      have hcs : clearHover s =
          { s with
            items := s.items.map (fun (m : ItemMesh) =>
              if m.ref = r then
                { m with emissiveIntensity :=
                    if m.isCategoryToggle then (0.2 : ℚ) else (0.1 : ℚ) }
              else m)
            centerToggle := s.centerToggle.map (fun (t : ItemMesh) =>
              if t.ref = r then
                { t with emissiveIntensity :=
                    if t.isCategoryToggle then (0.2 : ℚ) else (0.1 : ℚ) }
              else t)
            hoveredRef := none } := by
        unfold clearHover
        rw [hh]
        dsimp only
        rw [hio]
      rw [hcs]
      have hcur : currentItems
          { s with
            items := s.items.map (fun (m : ItemMesh) =>
              if m.ref = r then
                { m with emissiveIntensity :=
                    if m.isCategoryToggle then (0.2 : ℚ) else (0.1 : ℚ) }
              else m)
            centerToggle := s.centerToggle.map (fun (t : ItemMesh) =>
              if t.ref = r then
                { t with emissiveIntensity :=
                    if t.isCategoryToggle then (0.2 : ℚ) else (0.1 : ℚ) }
              else t)
            hoveredRef := none } = currentItems s := currentItems_congr _ _ rfl rfl
      refine ⟨?_, rfl, rfl, rfl, rfl, rfl, rfl, by simp, ?_, ?_⟩
      · refine
          { idx_lt := hInv.idx_lt
            empty_items := ?_, empty_labels := hInv.empty_labels, empty_toggle := ?_
            len_items := ?_, len_labels := ?_, item_id := ?_, item_url := ?_
            item_not_toggle := ?_, label_text := ?_, refs_nodup := ?_, toggle_true := ?_
            toggle_fresh := ?_, toggle_cats := ?_, ref_lt := ?_, togref_lt := ?_
            hov_lt := ?_, on_sel := hInv.on_sel
            hov_label := ?_, hov_item_emis := ?_, hov_item_id := ?_, hov_toggle_emis := ?_ }
        · intro hcats
          dsimp only
          rw [hInv.empty_items hcats]
          rfl
        · intro hcats
          dsimp only
          rw [hInv.empty_toggle hcats]
          rfl
        · dsimp only
          rw [hcur]
          simp [hInv.len_items]
        · dsimp only
          simp [hInv.len_labels]
        · intro i h h2
          rw [List.getElem_of_eq hcur h2]
          dsimp only at h ⊢
          rw [List.getElem_map, updClear_id]
          exact hInv.item_id i (by simpa using h) (by rwa [hcur] at h2)
        · intro i h h2
          rw [List.getElem_of_eq hcur h2]
          dsimp only at h ⊢
          rw [List.getElem_map, updClear_url]
          exact hInv.item_url i (by simpa using h) (by rwa [hcur] at h2)
        · intro m hm
          dsimp only at hm
          obtain ⟨m0, hm0, rfl⟩ := List.mem_map.mp hm
          rw [updClear_tog]
          exact hInv.item_not_toggle m0 hm0
        · intro i h h2
          rw [List.getElem_of_eq hcur h2]
          dsimp only at h ⊢
          exact hInv.label_text i (by simpa using h) (by rwa [hcur] at h2)
        · dsimp only
          rw [mapRefs_updClear]
          exact hInv.refs_nodup
        · intro t ht
          dsimp only at ht
          obtain ⟨t0, ht0, rfl⟩ := optMapClear_elim _ _ _ ht
          rw [updClear_tog]
          exact hInv.toggle_true t0 ht0
        · intro t ht m hm
          dsimp only at ht hm
          obtain ⟨t0, ht0, rfl⟩ := optMapClear_elim _ _ _ ht
          obtain ⟨m0, hm0, rfl⟩ := List.mem_map.mp hm
          rw [updClear_ref, updClear_ref]
          exact hInv.toggle_fresh t0 ht0 m0 hm0
        · intro hne
          dsimp only at hne
          apply hInv.toggle_cats
          intro hcon
          rw [hcon] at hne
          simp at hne
        · intro m hm
          dsimp only at hm ⊢
          obtain ⟨m0, hm0, rfl⟩ := List.mem_map.mp hm
          rw [updClear_ref]
          exact hInv.ref_lt m0 hm0
        · intro t ht
          dsimp only at ht ⊢
          obtain ⟨t0, ht0, rfl⟩ := optMapClear_elim _ _ _ ht
          rw [updClear_ref]
          exact hInv.togref_lt t0 ht0
        · intro r2 hr2
          dsimp only at hr2
          simp at hr2
        · intro i h h2
          dsimp only at h h2 ⊢
          constructor
          · intro hvis
            exfalso
            have hj2 : i < s.items.length := by simpa using h2
            have := (hlab i (by simpa using h) hj2).mp hvis
            exact hnone (s.items[i]) (List.getElem_mem hj2) this.symm
          · intro hcon
            simp at hcon
        · intro i h
          dsimp only at h ⊢
          have hi : i < s.items.length := by simpa using h
          rw [List.getElem_map, hitemv i hi, if_neg (by simp)]
        · intro i h hcon
          dsimp only at hcon
          simp at hcon
        · intro t ht
          dsimp only at ht ⊢
          obtain ⟨t0, ht0, rfl⟩ := optMapClear_elim _ _ _ ht
          rw [htogv t0 ht0, if_neg (by simp)]
      · intro i h h2
        dsimp only at h ⊢
        rw [List.getElem_map, updClear_ref, updClear_id]
        exact ⟨rfl, rfl⟩
      · dsimp only
        cases hct : s.centerToggle with
        | none => rfl
        | some t0 => simp [updClear_ref]
    · obtain ⟨hi0, hi0r⟩ := indexOfRef_some s.items r i0 hio
      have hcs : clearHover s =
          { s with
            items := s.items.map (fun (m : ItemMesh) =>
              if m.ref = r then
                { m with emissiveIntensity :=
                    if m.isCategoryToggle then (0.2 : ℚ) else (0.1 : ℚ) }
              else m)
            centerToggle := s.centerToggle.map (fun (t : ItemMesh) =>
              if t.ref = r then
                { t with emissiveIntensity :=
                    if t.isCategoryToggle then (0.2 : ℚ) else (0.1 : ℚ) }
              else t)
            labels := setLabelVis s.labels i0 false
            hoveredRef := none } := by
        unfold clearHover
        rw [hh]
        dsimp only
        rw [hio]
      rw [hcs]
      have hcur : currentItems
          { s with
            items := s.items.map (fun (m : ItemMesh) =>
              if m.ref = r then
                { m with emissiveIntensity :=
                    if m.isCategoryToggle then (0.2 : ℚ) else (0.1 : ℚ) }
              else m)
            centerToggle := s.centerToggle.map (fun (t : ItemMesh) =>
              if t.ref = r then
                { t with emissiveIntensity :=
                    if t.isCategoryToggle then (0.2 : ℚ) else (0.1 : ℚ) }
              else t)
            labels := setLabelVis s.labels i0 false
            hoveredRef := none } = currentItems s := currentItems_congr _ _ rfl rfl
      refine ⟨?_, rfl, rfl, rfl, rfl, rfl, rfl, by simp, ?_, ?_⟩
      · refine
          { idx_lt := hInv.idx_lt
            empty_items := ?_, empty_labels := ?_, empty_toggle := ?_
            len_items := ?_, len_labels := ?_, item_id := ?_, item_url := ?_
            item_not_toggle := ?_, label_text := ?_, refs_nodup := ?_, toggle_true := ?_
            toggle_fresh := ?_, toggle_cats := ?_, ref_lt := ?_, togref_lt := ?_
            hov_lt := ?_, on_sel := hInv.on_sel
            hov_label := ?_, hov_item_emis := ?_, hov_item_id := ?_, hov_toggle_emis := ?_ }
        · intro hcats
          dsimp only
          rw [hInv.empty_items hcats]
          rfl
        · intro hcats
          dsimp only
          rw [hInv.empty_labels hcats]
          rfl
        · intro hcats
          dsimp only
          rw [hInv.empty_toggle hcats]
          rfl
        · dsimp only
          rw [hcur]
          simp [hInv.len_items]
        · dsimp only
          simp [length_setLabelVis, hInv.len_labels]
        · intro i h h2
          rw [List.getElem_of_eq hcur h2]
          dsimp only at h ⊢
          rw [List.getElem_map, updClear_id]
          exact hInv.item_id i (by simpa using h) (by rwa [hcur] at h2)
        · intro i h h2
          rw [List.getElem_of_eq hcur h2]
          dsimp only at h ⊢
          rw [List.getElem_map, updClear_url]
          exact hInv.item_url i (by simpa using h) (by rwa [hcur] at h2)
        · intro m hm
          dsimp only at hm
          obtain ⟨m0, hm0, rfl⟩ := List.mem_map.mp hm
          rw [updClear_tog]
          exact hInv.item_not_toggle m0 hm0
        · intro i h h2
          rw [List.getElem_of_eq hcur h2]
          dsimp only at h ⊢
          have hil : i < s.labels.length := by
            simpa [length_setLabelVis] using h
          rw [getElem_setLabelVis s.labels i0 false i (by simpa [length_setLabelVis] using h) hil]
          by_cases hii : i = i0
          · rw [if_pos hii]
            exact hInv.label_text i hil (by rwa [hcur] at h2)
          · rw [if_neg hii]
            exact hInv.label_text i hil (by rwa [hcur] at h2)
        · dsimp only
          rw [mapRefs_updClear]
          exact hInv.refs_nodup
        · intro t ht
          dsimp only at ht
          obtain ⟨t0, ht0, rfl⟩ := optMapClear_elim _ _ _ ht
          rw [updClear_tog]
          exact hInv.toggle_true t0 ht0
        · intro t ht m hm
          dsimp only at ht hm
          obtain ⟨t0, ht0, rfl⟩ := optMapClear_elim _ _ _ ht
          obtain ⟨m0, hm0, rfl⟩ := List.mem_map.mp hm
          rw [updClear_ref, updClear_ref]
          exact hInv.toggle_fresh t0 ht0 m0 hm0
        · intro hne
          dsimp only at hne
          apply hInv.toggle_cats
          intro hcon
          rw [hcon] at hne
          simp at hne
        · intro m hm
          dsimp only at hm ⊢
          obtain ⟨m0, hm0, rfl⟩ := List.mem_map.mp hm
          rw [updClear_ref]
          exact hInv.ref_lt m0 hm0
        · intro t ht
          dsimp only at ht ⊢
          obtain ⟨t0, ht0, rfl⟩ := optMapClear_elim _ _ _ ht
          rw [updClear_ref]
          exact hInv.togref_lt t0 ht0
        · intro r2 hr2
          dsimp only at hr2
          simp at hr2
        · intro i h h2
          dsimp only at h h2 ⊢
          have hil : i < s.labels.length := by
            simpa [length_setLabelVis] using h
          have hi2 : i < s.items.length := by simpa using h2
          rw [getElem_setLabelVis s.labels i0 false i (by simpa [length_setLabelVis] using h) hil]
          constructor
          · intro hvis
            exfalso
            by_cases hii : i = i0
            · rw [if_pos hii] at hvis
              simp at hvis
            · rw [if_neg hii] at hvis
              have hreq := (hlab i hil hi2).mp hvis
              exact hii (nodup_ref_getElem_inj s.items hnodup i i0 hi2 hi0
                (by rw [← hreq, hi0r]))
          · intro hcon
            simp at hcon
        · intro i h
          dsimp only at h ⊢
          have hi : i < s.items.length := by simpa using h
          rw [List.getElem_map, hitemv i hi, if_neg (by simp)]
        · intro i h hcon
          dsimp only at hcon
          simp at hcon
        · intro t ht
          dsimp only at ht ⊢
          obtain ⟨t0, ht0, rfl⟩ := optMapClear_elim _ _ _ ht
          rw [htogv t0 ht0, if_neg (by simp)]
      · intro i h h2
        dsimp only at h ⊢
        rw [List.getElem_map, updClear_ref, updClear_id]
        exact ⟨rfl, rfl⟩
      · dsimp only
        cases hct : s.centerToggle with
        | none => rfl
        | some t0 => simp [updClear_ref]

theorem optMapV_elim (o : Option ItemMesh) (r : ℕ) (v : ℚ) (t : ItemMesh)
    (h : (o.map (fun (m : ItemMesh) =>
        if m.ref = r then { m with emissiveIntensity := v } else m)) = some t) :
    ∃ t0, o = some t0 ∧
      t = (if t0.ref = r then { t0 with emissiveIntensity := v } else t0) := by
  cases o with
  | none => simp at h
  | some t0 => exact ⟨t0, rfl, by simpa using h.symm⟩

theorem emisSet_ref (m : ItemMesh) (v : ℚ) :
    ({ m with emissiveIntensity := v }).ref = m.ref := rfl

theorem emisSet_id (m : ItemMesh) (v : ℚ) :
    ({ m with emissiveIntensity := v }).menuItemId = m.menuItemId := rfl

theorem emisSet_url (m : ItemMesh) (v : ℚ) :
    ({ m with emissiveIntensity := v }).url = m.url := rfl

theorem emisSet_emis (m : ItemMesh) (v : ℚ) :
    ({ m with emissiveIntensity := v }).emissiveIntensity = v := rfl

theorem menuInv_hoverToggle (s1 : MenuState) (hInv : MenuInv s1) (hnone : s1.hoveredRef = none)
    (t : ItemMesh) (ht : s1.centerToggle = some t) :
    MenuInv { s1 with
      items := s1.items.map (fun (m : ItemMesh) =>
        if m.ref = t.ref then { m with emissiveIntensity := (0.6 : ℚ) } else m)
      centerToggle := s1.centerToggle.map (fun (m : ItemMesh) =>
        if m.ref = t.ref then { m with emissiveIntensity := (0.6 : ℚ) } else m)
      hoveredRef := some t.ref } := by
  have hitems : s1.items.map (fun (m : ItemMesh) =>
      if m.ref = t.ref then { m with emissiveIntensity := (0.6 : ℚ) } else m) = s1.items := by
    have hpt : ∀ m ∈ s1.items,
        (if m.ref = t.ref then { m with emissiveIntensity := (0.6 : ℚ) } else m) = m :=
      fun m hm => if_neg (hInv.toggle_fresh t ht m hm)
    rw [List.map_congr_left hpt]
    simp
  have hcur : currentItems { s1 with
      items := s1.items.map (fun (m : ItemMesh) =>
        if m.ref = t.ref then { m with emissiveIntensity := (0.6 : ℚ) } else m)
      centerToggle := s1.centerToggle.map (fun (m : ItemMesh) =>
        if m.ref = t.ref then { m with emissiveIntensity := (0.6 : ℚ) } else m)
      hoveredRef := some t.ref } = currentItems s1 := currentItems_congr _ _ rfl rfl
  have hlabinv : ∀ j (hj : j < s1.labels.length) (hj2 : j < s1.items.length),
      (s1.labels[j]).visible = false := by
    intro j hj hj2
    have := hInv.hov_label j hj hj2
    rw [hnone] at this
    rcases hv : (s1.labels[j]).visible with _ | _
    · rfl
    · exact absurd (this.mp hv) (by simp)
  refine
    { idx_lt := hInv.idx_lt
      empty_items := ?_, empty_labels := hInv.empty_labels, empty_toggle := ?_
      len_items := ?_, len_labels := ?_, item_id := ?_, item_url := ?_
      item_not_toggle := ?_, label_text := ?_, refs_nodup := ?_, toggle_true := ?_
      toggle_fresh := ?_, toggle_cats := ?_, ref_lt := ?_, togref_lt := ?_
      hov_lt := ?_, on_sel := hInv.on_sel
      hov_label := ?_, hov_item_emis := ?_, hov_item_id := ?_, hov_toggle_emis := ?_ }
  · intro hcats
    dsimp only
    rw [hitems]
    exact hInv.empty_items hcats
  · intro hcats
    exfalso
    rw [hInv.empty_toggle hcats] at ht
    simp at ht
  · dsimp only
    rw [hcur, hitems]
    exact hInv.len_items
  · dsimp only
    rw [hitems]
    exact hInv.len_labels
  · intro i h h2
    rw [List.getElem_of_eq hcur h2]
    dsimp only at h ⊢
    rw [List.getElem_of_eq hitems h]
    exact hInv.item_id i (by rwa [hitems] at h) (by rwa [hcur] at h2)
  · intro i h h2
    rw [List.getElem_of_eq hcur h2]
    dsimp only at h ⊢
    rw [List.getElem_of_eq hitems h]
    exact hInv.item_url i (by rwa [hitems] at h) (by rwa [hcur] at h2)
  · intro m hm
    dsimp only at hm
    rw [hitems] at hm
    exact hInv.item_not_toggle m hm
  · intro i h h2
    rw [List.getElem_of_eq hcur h2]
    dsimp only at h ⊢
    exact hInv.label_text i h (by rwa [hcur] at h2)
  · dsimp only
    rw [hitems]
    exact hInv.refs_nodup
  · intro t2 ht2
    dsimp only at ht2
    obtain ⟨t0, ht0, rfl⟩ := optMapV_elim _ _ _ _ ht2
    rw [updV_tog]
    exact hInv.toggle_true t0 ht0
  · intro t2 ht2 m hm
    dsimp only at ht2 hm
    obtain ⟨t0, ht0, rfl⟩ := optMapV_elim _ _ _ _ ht2
    rw [hitems] at hm
    rw [updV_ref]
    exact hInv.toggle_fresh t0 ht0 m hm
  · intro hne
    apply hInv.toggle_cats
    rw [ht]
    simp
  · intro m hm
    dsimp only at hm ⊢
    rw [hitems] at hm
    exact hInv.ref_lt m hm
  · intro t2 ht2
    dsimp only at ht2 ⊢
    obtain ⟨t0, ht0, rfl⟩ := optMapV_elim _ _ _ _ ht2
    rw [updV_ref]
    exact hInv.togref_lt t0 ht0
  · intro r2 hr2
    dsimp only at hr2 ⊢
    obtain rfl : t.ref = r2 := by simpa using hr2
    exact hInv.togref_lt t ht
  · intro i h h2
    dsimp only at h h2 ⊢
    rw [List.getElem_of_eq hitems h2]
    have hi2 : i < s1.items.length := by rwa [hitems] at h2
    constructor
    · intro hvis
      exact absurd (hlabinv i h hi2 ▸ hvis) (by simp)
    · intro hcon
      exfalso
      have hte : t.ref = (s1.items[i]).ref := by simpa using hcon
      exact hInv.toggle_fresh t ht (s1.items[i]) (List.getElem_mem hi2) hte.symm
  · intro i h
    dsimp only at h ⊢
    have hi2 : i < s1.items.length := by rwa [hitems] at h
    rw [List.getElem_of_eq hitems h]
    have hcond : ¬ (some t.ref = some ((s1.items[i]).ref)) := by
      intro hcon
      exact hInv.toggle_fresh t ht (s1.items[i]) (List.getElem_mem hi2)
        (by simpa using hcon.symm)
    rw [if_neg hcond]
    have hbase := hInv.hov_item_emis i hi2
    rw [hnone] at hbase
    have hno : ¬ ((none : Option ℕ) = some ((s1.items[i]).ref)) :=
      fun hcon => Option.noConfusion hcon
    rw [hbase, if_neg hno]
  · intro i h hcon
    dsimp only at h hcon
    have hi2 : i < s1.items.length := by rwa [hitems] at h
    rw [List.getElem_of_eq hitems h] at hcon
    exfalso
    exact hInv.toggle_fresh t ht (s1.items[i]) (List.getElem_mem hi2)
      (by simpa using hcon.symm)
  · intro t2 ht2
    dsimp only at ht2 ⊢
    obtain ⟨t0, ht0, rfl⟩ := optMapV_elim _ _ _ _ ht2
    obtain rfl : t0 = t := by
      rw [ht0] at ht
      simpa using ht
    rw [if_pos rfl, emisSet_emis, emisSet_ref, if_pos rfl]

theorem menuInv_hoverItem (s1 : MenuState) (hInv : MenuInv s1) (hnone : s1.hoveredRef = none)
    (i0 : ℕ) (hi0 : i0 < s1.items.length) (hid : (s1.items[i0]).menuItemId ≠ "") :
    indexOfRef (s1.items.map (fun (m : ItemMesh) =>
        if m.ref = (s1.items[i0]).ref then { m with emissiveIntensity := (0.5 : ℚ) } else m))
      ((s1.items[i0]).ref) = some i0 ∧
    MenuInv { s1 with
      items := s1.items.map (fun (m : ItemMesh) =>
        if m.ref = (s1.items[i0]).ref then { m with emissiveIntensity := (0.5 : ℚ) } else m)
      centerToggle := s1.centerToggle.map (fun (m : ItemMesh) =>
        if m.ref = (s1.items[i0]).ref then { m with emissiveIntensity := (0.5 : ℚ) } else m)
      labels := setLabelVis s1.labels i0 true
      hoveredRef := some ((s1.items[i0]).ref) } ∧
    (∀ i (h2 : i < s1.items.length),
        (((s1.items.map (fun (m : ItemMesh) =>
            if m.ref = (s1.items[i0]).ref then { m with emissiveIntensity := (0.5 : ℚ) }
            else m)).get ⟨i, by simpa using h2⟩).menuItemId = (s1.items[i]).menuItemId ∧
         ((s1.items.map (fun (m : ItemMesh) =>
            if m.ref = (s1.items[i0]).ref then { m with emissiveIntensity := (0.5 : ℚ) }
            else m)).get ⟨i, by simpa using h2⟩).ref = (s1.items[i]).ref)) := by
  have hnodup := hInv.refs_nodup
  have hrefne : ∀ i (hi : i < s1.items.length), i ≠ i0 →
      (s1.items[i]).ref ≠ (s1.items[i0]).ref := by
    intro i hi hne hcon
    exact hne (nodup_ref_getElem_inj s1.items hnodup i i0 hi hi0 hcon)
  have hlabinv : ∀ j (hj : j < s1.labels.length) (hj2 : j < s1.items.length),
      (s1.labels[j]).visible = false := by
    intro j hj hj2
    have := hInv.hov_label j hj hj2
    rw [hnone] at this
    rcases hv : (s1.labels[j]).visible with _ | _
    · rfl
    · exact absurd (this.mp hv) (by simp)
  have hitem : ∀ i (hmap : i < ((s1.items.map (fun (m : ItemMesh) =>
      if m.ref = (s1.items[i0]).ref then { m with emissiveIntensity := (0.5 : ℚ) } else m))).length)
      (hi : i < s1.items.length),
      ((s1.items.map (fun (m : ItemMesh) =>
        if m.ref = (s1.items[i0]).ref then { m with emissiveIntensity := (0.5 : ℚ) } else m))[i])
      = if i = i0 then { s1.items[i0] with emissiveIntensity := (0.5 : ℚ) } else s1.items[i] := by
    intro i hmap hi
    rw [List.getElem_map]
    by_cases hii : i = i0
    · subst hii
      rw [if_pos rfl, if_pos rfl]
    · rw [if_neg (hrefne i hi hii), if_neg hii]
  have hcur : currentItems { s1 with
      items := s1.items.map (fun (m : ItemMesh) =>
        if m.ref = (s1.items[i0]).ref then { m with emissiveIntensity := (0.5 : ℚ) } else m)
      centerToggle := s1.centerToggle.map (fun (m : ItemMesh) =>
        if m.ref = (s1.items[i0]).ref then { m with emissiveIntensity := (0.5 : ℚ) } else m)
      labels := setLabelVis s1.labels i0 true
      hoveredRef := some ((s1.items[i0]).ref) } = currentItems s1 :=
    currentItems_congr _ _ rfl rfl
  refine ⟨?_, ?_, ?_⟩
  · rw [indexOfRef_map_refpres _ _ _ (fun m => updV_ref _ _ m)]
    exact indexOfRef_of_getElem s1.items _ i0 hnodup hi0 rfl
  · refine
      { idx_lt := hInv.idx_lt
        empty_items := ?_, empty_labels := ?_, empty_toggle := ?_
        len_items := ?_, len_labels := ?_, item_id := ?_, item_url := ?_
        item_not_toggle := ?_, label_text := ?_, refs_nodup := ?_, toggle_true := ?_
        toggle_fresh := ?_, toggle_cats := ?_, ref_lt := ?_, togref_lt := ?_
        hov_lt := ?_, on_sel := hInv.on_sel
        hov_label := ?_, hov_item_emis := ?_, hov_item_id := ?_, hov_toggle_emis := ?_ }
    · intro hcats
      exfalso
      rw [hInv.empty_items hcats] at hi0
      simp at hi0
    · intro hcats
      exfalso
      rw [hInv.empty_items hcats] at hi0
      simp at hi0
    · intro hcats
      exfalso
      rw [hInv.empty_items hcats] at hi0
      simp at hi0
    · dsimp only
      rw [hcur]
      simpa using hInv.len_items
    · dsimp only
      simp [length_setLabelVis, hInv.len_labels]
    · intro i h h2
      rw [List.getElem_of_eq hcur h2]
      dsimp only at h ⊢
      have hi : i < s1.items.length := by simpa using h
      rw [hitem i h hi]
      by_cases hii : i = i0
      · subst hii
        rw [if_pos rfl, emisSet_id]
        exact hInv.item_id i hi (by rwa [hcur] at h2)
      · rw [if_neg hii]
        exact hInv.item_id i hi (by rwa [hcur] at h2)
    · intro i h h2
      rw [List.getElem_of_eq hcur h2]
      dsimp only at h ⊢
      have hi : i < s1.items.length := by simpa using h
      rw [hitem i h hi]
      by_cases hii : i = i0
      · subst hii
        rw [if_pos rfl, emisSet_url]
        exact hInv.item_url i hi (by rwa [hcur] at h2)
      · rw [if_neg hii]
        exact hInv.item_url i hi (by rwa [hcur] at h2)
    · intro m hm
      dsimp only at hm
      obtain ⟨m0, hm0, rfl⟩ := List.mem_map.mp hm
      rw [updV_tog]
      exact hInv.item_not_toggle m0 hm0
    · intro i h h2
      rw [List.getElem_of_eq hcur h2]
      dsimp only at h ⊢
      have hil : i < s1.labels.length := by simpa [length_setLabelVis] using h
      rw [getElem_setLabelVis s1.labels i0 true i (by simpa [length_setLabelVis] using h) hil]
      by_cases hii : i = i0
      · rw [if_pos hii]
        exact hInv.label_text i hil (by rwa [hcur] at h2)
      · rw [if_neg hii]
        exact hInv.label_text i hil (by rwa [hcur] at h2)
    · dsimp only
      rw [mapRefs_updV]
      exact hInv.refs_nodup
    · intro t2 ht2
      dsimp only at ht2
      obtain ⟨t0, ht0, rfl⟩ := optMapV_elim _ _ _ _ ht2
      rw [updV_tog]
      exact hInv.toggle_true t0 ht0
    · intro t2 ht2 m hm
      dsimp only at ht2 hm
      obtain ⟨t0, ht0, rfl⟩ := optMapV_elim _ _ _ _ ht2
      obtain ⟨m0, hm0, rfl⟩ := List.mem_map.mp hm
      rw [updV_ref, updV_ref]
      exact hInv.toggle_fresh t0 ht0 m0 hm0
    · intro hne
      dsimp only at hne
      apply hInv.toggle_cats
      intro hcon
      rw [hcon] at hne
      simp at hne
    · intro m hm
      dsimp only at hm ⊢
      obtain ⟨m0, hm0, rfl⟩ := List.mem_map.mp hm
      rw [updV_ref]
      exact hInv.ref_lt m0 hm0
    · intro t2 ht2
      dsimp only at ht2 ⊢
      obtain ⟨t0, ht0, rfl⟩ := optMapV_elim _ _ _ _ ht2
      rw [updV_ref]
      exact hInv.togref_lt t0 ht0
    · intro r2 hr2
      dsimp only at hr2 ⊢
      obtain rfl : (s1.items[i0]).ref = r2 := by simpa using hr2
      exact hInv.ref_lt (s1.items[i0]) (List.getElem_mem hi0)
    · intro i h h2
      dsimp only at h h2 ⊢
      have hil : i < s1.labels.length := by simpa [length_setLabelVis] using h
      have hi : i < s1.items.length := by simpa using h2
      rw [getElem_setLabelVis s1.labels i0 true i (by simpa [length_setLabelVis] using h) hil]
      rw [hitem i h2 hi]
      by_cases hii : i = i0
      · subst hii
        rw [if_pos rfl, if_pos rfl]
        simp [emisSet_ref]
      · rw [if_neg hii, if_neg hii]
        constructor
        · intro hvis
          exact absurd (hlabinv i hil hi ▸ hvis) (by simp)
        · intro hcon
          exfalso
          exact hrefne i hi hii (by simpa using hcon.symm)
    · intro i h
      dsimp only at h ⊢
      have hi : i < s1.items.length := by simpa using h
      rw [hitem i h hi]
      by_cases hii : i = i0
      · subst hii
        rw [if_pos rfl, emisSet_emis, emisSet_ref, if_pos rfl]
      · rw [if_neg hii]
        have hcond : ¬ (some ((s1.items[i0]).ref) = some ((s1.items[i]).ref)) := by
          intro hcon
          exact hrefne i hi hii (by simpa using hcon.symm)
        rw [if_neg hcond]
        have hbase := hInv.hov_item_emis i hi
        rw [hnone] at hbase
        have hno : ¬ ((none : Option ℕ) = some ((s1.items[i]).ref)) :=
          fun hcon => Option.noConfusion hcon
        rw [hbase, if_neg hno]
    · intro i h hcon
      dsimp only at h hcon ⊢
      have hi : i < s1.items.length := by simpa using h
      rw [hitem i h hi] at hcon ⊢
      by_cases hii : i = i0
      · subst hii
        rw [if_pos rfl, emisSet_id]
        exact hid
      · rw [if_neg hii] at hcon
        exfalso
        exact hrefne i hi hii (by simpa using hcon.symm)
    · intro t2 ht2
      dsimp only at ht2 ⊢
      obtain ⟨t0, ht0, rfl⟩ := optMapV_elim _ _ _ _ ht2
      have htne : t0.ref ≠ (s1.items[i0]).ref :=
        fun hcon => hInv.toggle_fresh t0 ht0 (s1.items[i0]) (List.getElem_mem hi0) hcon.symm
      rw [if_neg htne]
      have hcond : ¬ (some ((s1.items[i0]).ref) = some t0.ref) := by
        intro hcon
        exact htne (by simpa using hcon.symm)
      rw [if_neg hcond]
      have hbase := hInv.hov_toggle_emis t0 ht0
      rw [hnone] at hbase
      have hno : ¬ ((none : Option ℕ) = some t0.ref) :=
        fun hcon => Option.noConfusion hcon
      rw [hbase, if_neg hno]
  · intro i h2
    have hmap : i < ((s1.items.map (fun (m : ItemMesh) =>
        if m.ref = (s1.items[i0]).ref then { m with emissiveIntensity := (0.5 : ℚ) }
        else m))).length := by
      simpa using h2
    simp only [List.get_eq_getElem]
    rw [hitem i hmap h2]
    by_cases hii : i = i0
    · subst hii
      rw [if_pos rfl, emisSet_id, emisSet_ref]
      exact ⟨rfl, rfl⟩
    · rw [if_neg hii]
      exact ⟨rfl, rfl⟩

theorem checkInteraction_spec (s : MenuState) (hInv : MenuInv s) (hit : Option ℕ) :
    MenuInv (checkInteraction hit s).1 ∧
    (checkInteraction hit s).1.categories = s.categories ∧
    (checkInteraction hit s).1.currentCategoryIndex = s.currentCategoryIndex ∧
    (checkInteraction hit s).1.isVisible = s.isVisible ∧
    (checkInteraction hit s).1.onSelectSet = s.onSelectSet ∧
    (s.isVisible = true →
      ((checkInteraction hit s).2 = none → (checkInteraction hit s).1.hoveredRef = none) ∧
      (∀ id, (checkInteraction hit s).2 = some id → id ≠ "__toggle__" →
        ∃ i, ∃ (h2 : i < (checkInteraction hit s).1.items.length),
          ((checkInteraction hit s).1.items[i]).menuItemId = id ∧
          (checkInteraction hit s).1.hoveredRef
            = some (((checkInteraction hit s).1.items[i]).ref))) := by
  by_cases hv : s.isVisible = true
  · obtain ⟨hInv1, hhov1, hcats1, hidx1, hvis1, hsel1, hnext1, hlen1, hpt1, htog1⟩ :=
      clearHover_spec s hInv
    have hv' : ¬ (s.isVisible = false) := by simp [hv]
    rcases hit with _ | i
    · have hred : checkInteraction none s = (clearHover s, none) := by
        unfold checkInteraction
        rw [if_neg hv']
      rw [hred]
      exact ⟨hInv1, hcats1, hidx1, hvis1, hsel1,
        fun _ => ⟨fun _ => hhov1, fun id hcon => by simp at hcon⟩⟩
    · rcases hobj : (allInteractable s)[i]? with _ | obj
      · have hred : checkInteraction (some i) s = (clearHover s, none) := by
          unfold checkInteraction
          rw [if_neg hv']
          dsimp only
          rw [hobj]
        rw [hred]
        exact ⟨hInv1, hcats1, hidx1, hvis1, hsel1,
          fun _ => ⟨fun _ => hhov1, fun id hcon => by simp at hcon⟩⟩
      · rcases allInteractable_getElem_cases s i obj hobj with ⟨hi0, rfl⟩ | ⟨hieq, htog⟩
        · -- the nearest hit is the item mesh at index i
          have hobjnt : (s.items[i]).isCategoryToggle = false :=
            hInv.item_not_toggle _ (List.getElem_mem hi0)
          have hnt : ¬ ((s.items[i]).isCategoryToggle = true) := by
            rw [hobjnt]
            simp
          have hi1 : i < (clearHover s).items.length := by
            rw [hlen1]
            exact hi0
          have hrefeq : ((clearHover s).items[i]).ref = (s.items[i]).ref := (hpt1 i hi1 hi0).1
          have hideq : ((clearHover s).items[i]).menuItemId = (s.items[i]).menuItemId :=
            (hpt1 i hi1 hi0).2
          by_cases hid : (s.items[i]).menuItemId ≠ ""
          · have hid1 : ((clearHover s).items[i]).menuItemId ≠ "" := by
              rw [hideq]
              exact hid
            obtain ⟨hidx, hInv2, hframe⟩ := menuInv_hoverItem (clearHover s) hInv1 hhov1 i hi1 hid1
            rw [hrefeq] at hidx hInv2 hframe
            have hred : checkInteraction (some i) s =
                ({ clearHover s with
                   items := (clearHover s).items.map (fun (m : ItemMesh) =>
                     if m.ref = (s.items[i]).ref then { m with emissiveIntensity := (0.5 : ℚ) }
                     else m)
                   centerToggle := (clearHover s).centerToggle.map (fun (m : ItemMesh) =>
                     if m.ref = (s.items[i]).ref then { m with emissiveIntensity := (0.5 : ℚ) }
                     else m)
                   labels := setLabelVis (clearHover s).labels i true
                   hoveredRef := some ((s.items[i]).ref) },
                 some ((s.items[i]).menuItemId)) := by
              unfold checkInteraction
              rw [if_neg hv']
              dsimp only
              rw [hobj]
              dsimp only
              rw [if_neg hnt, if_pos hid]
              dsimp only [setEmissive]
              rw [hidx]
            rw [hred]
            refine ⟨hInv2, hcats1, hidx1, hvis1, hsel1, fun _ => ⟨?_, ?_⟩⟩
            · intro hcon
              simp at hcon
            · intro id hcon hneq
              have hideq2 : (s.items[i]).menuItemId = id := by simpa using hcon
              have hmaplen : i < ((clearHover s).items.map (fun (m : ItemMesh) =>
                  if m.ref = (s.items[i]).ref then { m with emissiveIntensity := (0.5 : ℚ) }
                  else m)).length := by
                simpa using hi1
              refine ⟨i, by simpa using hi1, ?_, ?_⟩
              · have := (hframe i hi1).1
                rw [List.get_eq_getElem] at this
                dsimp only
                rw [this, hideq, hideq2]
              · have := (hframe i hi1).2
                rw [List.get_eq_getElem] at this
                dsimp only
                rw [this, hrefeq]
          · have hideqE : (s.items[i]).menuItemId = "" := not_ne_iff.mp hid
            have hred : checkInteraction (some i) s = (clearHover s, none) := by
              unfold checkInteraction
              rw [if_neg hv']
              dsimp only
              rw [hobj]
              dsimp only
              rw [if_neg hnt, if_neg hid]
            rw [hred]
            exact ⟨hInv1, hcats1, hidx1, hvis1, hsel1,
              fun _ => ⟨fun _ => hhov1, fun id hcon => by simp at hcon⟩⟩
        · -- the nearest hit is the centre toggle
          have htt : obj.isCategoryToggle = true := hInv.toggle_true obj htog
          have hmapref := htog1
          rw [htog] at hmapref
          obtain ⟨t1, ht1, ht1r⟩ : ∃ t1, (clearHover s).centerToggle = some t1 ∧
              t1.ref = obj.ref := by
            cases hc1 : (clearHover s).centerToggle with
            | none =>
              rw [hc1] at hmapref
              simp at hmapref
            | some t1 =>
              rw [hc1] at hmapref
              exact ⟨t1, rfl, by simpa using hmapref⟩
          have hInv2 := menuInv_hoverToggle (clearHover s) hInv1 hhov1 t1 ht1
          rw [ht1r] at hInv2
          have hred : checkInteraction (some i) s =
              ({ clearHover s with
                 items := (clearHover s).items.map (fun (m : ItemMesh) =>
                   if m.ref = obj.ref then { m with emissiveIntensity := (0.6 : ℚ) } else m)
                 centerToggle := (clearHover s).centerToggle.map (fun (m : ItemMesh) =>
                   if m.ref = obj.ref then { m with emissiveIntensity := (0.6 : ℚ) } else m)
                 hoveredRef := some obj.ref },
               some ("__toggle__")) := by
            unfold checkInteraction
            rw [if_neg hv']
            dsimp only
            rw [hobj]
            dsimp only
            rw [if_pos htt]
            dsimp only [setEmissive]
          rw [hred]
          refine ⟨hInv2, hcats1, hidx1, hvis1, hsel1, fun _ => ⟨?_, ?_⟩⟩
          · intro hcon
            simp at hcon
          · intro id hcon hneq
            exfalso
            apply hneq
            have : ("__toggle__" : String) = id := by simpa using hcon
            exact this.symm
  · have hvf : s.isVisible = false := by
      rcases hb : s.isVisible with _ | _
      · rfl
      · exact absurd hb hv
    have hred : checkInteraction hit s = (s, none) := by
      unfold checkInteraction
      rw [if_pos hvf]
    rw [hred]
    exact ⟨hInv, rfl, rfl, rfl, rfl, fun hvt => absurd hvt hv⟩

theorem handleClick_spec (s : MenuState) (hInv : MenuInv s) (hit : Option ℕ) :
    ∃ s2 c inval, handleClick hit s = .ok (s2, c, inval) ∧ MenuInv s2 := by
  by_cases hv : s.isVisible = false
  · exact ⟨s, false, none, by unfold handleClick; rw [if_pos hv], hInv⟩
  · rcases hit with _ | i
    · exact ⟨s, false, none, by unfold handleClick; rw [if_neg hv], hInv⟩
    · rcases hobj : (allInteractable s)[i]? with _ | obj
      · refine ⟨s, false, none, ?_, hInv⟩
        unfold handleClick
        rw [if_neg hv]
        dsimp only
        rw [hobj]
      · by_cases htg : obj.isCategoryToggle = true
        · have htogmem : s.centerToggle = some obj := by
            rcases allInteractable_getElem_cases s i obj hobj with ⟨hi0, rfl⟩ | ⟨_, h⟩
            · exact absurd htg (by
                rw [hInv.item_not_toggle _ (List.getElem_mem hi0)]
                simp)
            · exact h
          have hlen2 : 1 < s.categories.length := hInv.toggle_cats (by rw [htogmem]; simp)
          have hne0 : ¬ (s.categories.length = 0) := by omega
          obtain ⟨s2, hrb, hinv2, h3, h4, h5, h6, h7, h8⟩ :=
            rebuildItems_ok { s with currentCategoryIndex :=
                (s.currentCategoryIndex + 1) % s.categories.length }
              (Or.inr (by dsimp only; exact Nat.mod_lt _ (by omega)))
              (fun r hr => hInv.hov_lt r hr)
              (fun _ => hInv.on_sel (fun hc => by rw [hc] at hlen2; simp at hlen2))
          refine ⟨s2, true, none, ?_, hinv2⟩
          unfold handleClick
          rw [if_neg hv]
          dsimp only
          rw [hobj]
          dsimp only
          rw [if_pos htg]
          unfold nextCategory
          rw [if_neg hne0, hrb]
          rfl
        · by_cases hsl : obj.menuItemId ≠ "" ∧ s.onSelectSet = true
          · refine ⟨hideMenu s, true, some (obj.menuItemId, obj.url), ?_,
              menuInv_setVisible s false hInv⟩
            unfold handleClick
            rw [if_neg hv]
            dsimp only
            rw [hobj]
            dsimp only
            rw [if_neg htg, if_pos hsl]
          · refine ⟨s, false, none, ?_, hInv⟩
            unfold handleClick
            rw [if_neg hv]
            dsimp only
            rw [hobj]
            dsimp only
            rw [if_neg htg, if_neg hsl]

theorem runMenuOp_ok (s : MenuState) (hInv : MenuInv s) (op : MenuOp) :
    ∃ s2, runMenuOp s op = .ok s2 ∧ MenuInv s2 := by
  cases op with
  | setCategories cats =>
    obtain ⟨s2, hrb, hinv2, h3, h4, h5, h6, h7, h8⟩ :=
      rebuildItems_ok { s with categories := cats, onSelectSet := true,
                               currentCategoryIndex := 0 }
        (by
          cases cats with
          | nil => exact Or.inl rfl
          | cons c cs => exact Or.inr (by simp))
        (fun r hr => hInv.hov_lt r hr)
        (fun _ => rfl)
    exact ⟨s2, hrb, hinv2⟩
  | setItems items =>
    obtain ⟨s2, hrb, hinv2, h3, h4, h5, h6, h7, h8⟩ :=
      rebuildItems_ok { s with
          categories := [{ id := "default", label := "Items", items := items }],
          onSelectSet := true, currentCategoryIndex := 0 }
        (Or.inr (by simp))
        (fun r hr => hInv.hov_lt r hr)
        (fun _ => rfl)
    exact ⟨s2, hrb, hinv2⟩
  | showOp => exact ⟨showMenu s, rfl, menuInv_setVisible s true hInv⟩
  | hideOp => exact ⟨hideMenu s, rfl, menuInv_setVisible s false hInv⟩
  | toggleVis =>
    refine ⟨toggleMenu s, rfl, ?_⟩
    unfold toggleMenu
    split
    · exact menuInv_setVisible s false hInv
    · exact menuInv_setVisible s true hInv
  | update => exact ⟨s, rfl, hInv⟩
  | check hit =>
    exact ⟨(checkInteraction hit s).1, rfl, (checkInteraction_spec s hInv hit).1⟩
  | click hit =>
    obtain ⟨s2, c, inval, hok, hinv2⟩ := handleClick_spec s hInv hit
    refine ⟨s2, ?_, hinv2⟩
    show (handleClick hit s).map (·.1) = .ok s2
    rw [hok]
    rfl

theorem menuInv_runOps (ops : List MenuOp) :
    ∀ s s2 : MenuState, MenuInv s → runMenuOps s ops = .ok s2 → MenuInv s2 := by
  induction ops with
  | nil =>
    intro s s2 hInv h
    obtain rfl : s = s2 := by simpa [runMenuOps] using h
    exact hInv
  | cons op ops ih =>
    intro s s2 hInv h
    obtain ⟨sMid, hok, hinvMid⟩ := runMenuOp_ok s hInv op
    rw [runMenuOps, hok] at h
    exact ih sMid s2 hinvMid h

theorem menuInv_reachable (s : MenuState) (h : ReachableMenu s) : MenuInv s := by
  obtain ⟨ops, hops⟩ := h
  exact menuInv_runOps ops menuInit s menuInit_inv hops

theorem emptyPost_step (s : MenuState) (op : MenuOp) (hInv : MenuInv s)
    (hc : s.categories = []) (hop : isPostOp op = true) :
    ∃ s2, runMenuOp s op = .ok s2 ∧ MenuInv s2 ∧ s2.categories = [] := by
  cases op with
  | setCategories cats => simp [isPostOp] at hop
  | setItems items => simp [isPostOp] at hop
  | showOp => simp [isPostOp] at hop
  | hideOp => simp [isPostOp] at hop
  | toggleVis => simp [isPostOp] at hop
  | update => exact ⟨s, rfl, hInv, hc⟩
  | check hit =>
    obtain ⟨hInv2, hcats2, _⟩ := checkInteraction_spec s hInv hit
    exact ⟨_, rfl, hInv2, by rw [hcats2, hc]⟩
  | click hit =>
    have hempty : allInteractable s = [] := by
      unfold allInteractable
      rw [hInv.empty_items hc, hInv.empty_toggle hc]
      rfl
    have hhc : handleClick hit s = .ok (s, false, none) := by
      unfold handleClick
      by_cases hv : s.isVisible = false
      · rw [if_pos hv]
      · rw [if_neg hv]
        rcases hit with _ | i
        · rfl
        · dsimp only
          have hnone : (allInteractable s)[i]? = none := by
            rw [hempty]
            simp
          rw [hnone]
    refine ⟨s, ?_, hInv, hc⟩
    show (handleClick hit s).map (·.1) = .ok s
    rw [hhc]
    rfl

theorem emptyPost_run (ops : List MenuOp) :
    ∀ s : MenuState, MenuInv s → s.categories = [] → ops.all isPostOp = true →
    ∃ s1, runMenuOps s ops = .ok s1 ∧ MenuInv s1 ∧ s1.categories = [] := by
  induction ops with
  | nil =>
    intro s h hc _
    exact ⟨s, rfl, h, hc⟩
  | cons op ops ih =>
    intro s h hc hall
    rw [List.all_cons, Bool.and_eq_true] at hall
    obtain ⟨s2, hok, h2, hc2⟩ := emptyPost_step s op h hc hall.1
    obtain ⟨s1, hok1, h1, hc1⟩ := ih s2 h2 hc2 hall.2
    refine ⟨s1, ?_, h1, hc1⟩
    rw [runMenuOps, hok]
    exact hok1

/-- Claim C4: after `setCategories([], cb)` on any reachable menu state, every
subsequent sequence of `update`, `checkInteraction` and `handleClick` calls
succeeds (in particular the modulo-by-zero in `nextCategory` is never
evaluated), `checkInteraction` always reports no hit, `handleClick` consumes
nothing and invokes no callback, and `update` leaves the modelled state
unchanged. -/
theorem c4_empty_menu_safe (s : MenuState) (ops : List MenuOp)
    (hs : ReachableMenu s) (hops : ops.all isPostOp = true) :
    c4Concl s ops := by
  have hInv := menuInv_reachable s hs
  obtain ⟨s0, hok0, hInv0, hc0, _, _, _, _, _⟩ :=
    rebuildItems_ok { s with categories := [], onSelectSet := true, currentCategoryIndex := 0 }
      (Or.inl rfl) (fun r hr => hInv.hov_lt r hr) (fun hne => absurd rfl hne)
  obtain ⟨sE, hokE, hInvE, hcE⟩ := emptyPost_run ops s0 hInv0 (by rw [hc0]) hops
  have hempty : allInteractable sE = [] := by
    unfold allInteractable
    rw [hInvE.empty_items hcE, hInvE.empty_toggle hcE]
    rfl
  refine ⟨s0, hok0, sE, hokE, ?_, ?_, rfl⟩
  · intro hit
    by_cases hv : sE.isVisible = false
    · have hck : checkInteraction hit sE = (sE, none) := by
        unfold checkInteraction
        rw [if_pos hv]
      rw [hck]
    · rcases hit with _ | i
      · have hck : checkInteraction none sE = (clearHover sE, none) := by
          unfold checkInteraction
          rw [if_neg hv]
        rw [hck]
      · have hnone : (allInteractable sE)[i]? = none := by
          rw [hempty]
          simp
        have hck : checkInteraction (some i) sE = (clearHover sE, none) := by
          unfold checkInteraction
          rw [if_neg hv]
          dsimp only
          rw [hnone]
        rw [hck]
  · intro hit
    refine ⟨sE, ?_⟩
    unfold handleClick
    by_cases hv : sE.isVisible = false
    · rw [if_pos hv]
    · rw [if_neg hv]
      rcases hit with _ | i
      · rfl
      · dsimp only
        have hnone : (allInteractable sE)[i]? = none := by
          rw [hempty]
          simp
        rw [hnone]

theorem c4_empty_menu_safe_witness :
    ReachableMenu menuInit ∧ opsPostW.all isPostOp = true ∧ c4Concl menuInit opsPostW :=
  ⟨⟨[], rfl⟩, by decide, c4_empty_menu_safe menuInit opsPostW ⟨[], rfl⟩ (by decide)⟩

/-- Claim C5, counterexample to the original statement: on the reachable
visible state whose only item has the empty string as id, a raycast that hits
that item (a genuine non-toggle interactable) still returns `null` and leaves
every label hidden — the `if (item.userData.menuItemId)` truthiness check
swallows the hover. -/
theorem c5_counterexample :
    stateEmptyId.isVisible = true ∧
    (allInteractable stateEmptyId).map (fun m => m.isCategoryToggle) = [false] ∧
    (checkInteraction (some 0) stateEmptyId).2 = none ∧
    ∀ l ∈ (checkInteraction (some 0) stateEmptyId).1.labels, l.visible = false := by
  decide

/-- Claim C5 (amended with a non-empty-id proviso internalised in the
invariant): after any `checkInteraction` call on a reachable visible menu, at
most one label is visible and at most one interactable element is
hover-emphasised; when an item id is returned, exactly that item's label is
visible; on a miss every label is hidden and every element carries its base
emissive intensity. -/
theorem c5_hover_exclusive (s : MenuState) (hit : Option ℕ)
    (hs : ReachableMenu s) (hv : s.isVisible = true) : c5Concl s hit := by
  have hInv := menuInv_reachable s hs
  obtain ⟨hInv2, hcats2, hidx2, hvis2, hsel2, hret⟩ := checkInteraction_spec s hInv hit
  obtain ⟨hretnone, hretsome⟩ := hret hv
  unfold c5Concl
  dsimp only
  have hlen := hInv2.len_labels
  have key : ∀ i (hi : i < (allInteractable (checkInteraction hit s).1).length),
      emphasized ((allInteractable (checkInteraction hit s).1)[i]) = true →
      (checkInteraction hit s).1.hoveredRef
        = some (((allInteractable (checkInteraction hit s).1)[i]).ref) := by
    intro i hi hemph
    rcases allInteractable_getElem_cases (checkInteraction hit s).1 i _
        (List.getElem?_eq_getElem hi) with ⟨hi0, heq⟩ | ⟨hieq, htog⟩
    · rw [heq] at hemph ⊢
      have hnt : ((checkInteraction hit s).1.items[i]).isCategoryToggle = false :=
        hInv2.item_not_toggle _ (List.getElem_mem hi0)
      simp only [emphasized, hnt, Bool.false_eq_true, if_false, decide_eq_true_eq] at hemph
      have hbase := hInv2.hov_item_emis i hi0
      by_cases hhov : (checkInteraction hit s).1.hoveredRef
          = some (((checkInteraction hit s).1.items[i]).ref)
      · exact hhov
      · rw [if_neg hhov] at hbase
        exact absurd hbase hemph
    · have htt := hInv2.toggle_true _ htog
      simp only [emphasized, htt, if_true, decide_eq_true_eq] at hemph
      have hbase := hInv2.hov_toggle_emis _ htog
      by_cases hhov : (checkInteraction hit s).1.hoveredRef
          = some (((allInteractable (checkInteraction hit s).1)[i]).ref)
      · exact hhov
      · rw [if_neg hhov] at hbase
        exact absurd hbase hemph
  refine ⟨?_, ?_, ?_, ?_⟩
  · intro i j hi hj hvi hvj
    have hi2 : i < (checkInteraction hit s).1.items.length := by
      rw [← hlen]
      exact hi
    have hj2 : j < (checkInteraction hit s).1.items.length := by
      rw [← hlen]
      exact hj
    have h1 := (hInv2.hov_label i hi hi2).mp hvi
    have h2 := (hInv2.hov_label j hj hj2).mp hvj
    have href : ((checkInteraction hit s).1.items[i]).ref
        = ((checkInteraction hit s).1.items[j]).ref := by
      have := h1.symm.trans h2
      simpa using this
    exact nodup_ref_getElem_inj _ hInv2.refs_nodup i j hi2 hj2 href
  · intro i j hi hj hei hej
    have h1 := key i hi hei
    have h2 := key j hj hej
    have href : ((allInteractable (checkInteraction hit s).1)[i]).ref
        = ((allInteractable (checkInteraction hit s).1)[j]).ref := by
      have := h1.symm.trans h2
      simpa using this
    rcases allInteractable_getElem_cases (checkInteraction hit s).1 i _
        (List.getElem?_eq_getElem hi) with ⟨hi0, heqi⟩ | ⟨hieq, htogi⟩ <;>
      rcases allInteractable_getElem_cases (checkInteraction hit s).1 j _
          (List.getElem?_eq_getElem hj) with ⟨hj0, heqj⟩ | ⟨hjeq, htogj⟩
    · rw [heqi, heqj] at href
      exact nodup_ref_getElem_inj _ hInv2.refs_nodup i j hi0 hj0 href
    · exfalso
      apply hInv2.toggle_fresh _ htogj _ (List.getElem_mem hi0)
      rw [← heqi]
      exact href
    · exfalso
      apply hInv2.toggle_fresh _ htogi _ (List.getElem_mem hj0)
      rw [← heqj]
      exact href.symm
    · rw [hieq, hjeq]
  · intro id hretid hneq
    obtain ⟨i, h2, hid, hhov⟩ := hretsome id hretid hneq
    have hl : i < (checkInteraction hit s).1.labels.length := by
      rw [hlen]
      exact h2
    refine ⟨i, h2, hl, hid, ?_, ?_⟩
    · exact (hInv2.hov_label i hl h2).mpr hhov
    · intro j hj hvj
      have hj2 : j < (checkInteraction hit s).1.items.length := by
        rw [← hlen]
        exact hj
      have h1 := (hInv2.hov_label j hj hj2).mp hvj
      have href : ((checkInteraction hit s).1.items[j]).ref
          = ((checkInteraction hit s).1.items[i]).ref := by
        have := h1.symm.trans hhov
        simpa using this
      exact nodup_ref_getElem_inj _ hInv2.refs_nodup j i hj2 h2 href
  · intro hr
    have hnone := hretnone hr
    refine ⟨?_, ?_, ?_⟩
    · intro l hl
      obtain ⟨k, hk, rfl⟩ := List.mem_iff_getElem.mp hl
      have hk2 : k < (checkInteraction hit s).1.items.length := by
        rw [← hlen]
        exact hk
      have hnv : ¬ (((checkInteraction hit s).1.labels[k]).visible = true) := by
        rw [hInv2.hov_label k hk hk2, hnone]
        simp
      simpa using hnv
    · intro m hm
      obtain ⟨k, hk, rfl⟩ := List.mem_iff_getElem.mp hm
      have hbase := hInv2.hov_item_emis k hk
      rw [hnone] at hbase
      have hno : ¬ ((none : Option ℕ)
          = some (((checkInteraction hit s).1.items[k]).ref)) :=
        fun hcon => Option.noConfusion hcon
      rw [hbase, if_neg hno]
    · intro t ht
      have hbase := hInv2.hov_toggle_emis t ht
      rw [hnone] at hbase
      have hno : ¬ ((none : Option ℕ) = some t.ref) :=
        fun hcon => Option.noConfusion hcon
      rw [hbase, if_neg hno]

theorem c5_hover_exclusive_witness :
    ReachableMenu stateFood ∧ stateFood.isVisible = true ∧ c5Concl stateFood (some 0) :=
  ⟨⟨opsFood, rfl⟩, by decide,
   c5_hover_exclusive stateFood (some 0) ⟨opsFood, rfl⟩ (by decide)⟩

/-- Claim C8: in every reachable menu state the items and labels arrays have
equal length and correspond index-to-index to the current category's items,
and every index produced by the hover code's `items.indexOf` lookup is a valid
index into the labels array. -/
theorem c8_items_labels_aligned (s : MenuState) (hs : ReachableMenu s) : c8Concl s := by
  have hInv := menuInv_reachable s hs
  refine ⟨hInv.len_labels, ?_, ?_⟩
  · intro i hi hl hc
    exact ⟨hInv.item_id i hi hc, hInv.label_text i hl hc, hInv.item_url i hi hc⟩
  · intro r i hidx
    obtain ⟨h2, _⟩ := indexOfRef_some s.items r i hidx
    rw [hInv.len_labels]
    exact h2

theorem c8_items_labels_aligned_witness :
    ReachableMenu stateFood ∧ c8Concl stateFood :=
  ⟨⟨opsFood, rfl⟩, c8_items_labels_aligned stateFood ⟨opsFood, rfl⟩⟩

/-- Claim C9, counterexample to the original statement: on the reachable
visible state whose only item has the empty string as id and whose callback is
registered, a click whose nearest hit is that item invokes no callback and
returns false — `if (obj.userData.menuItemId && this.onSelect)` is falsy for
the empty-string id. -/
theorem c9_counterexample :
    stateEmptyId.isVisible = true ∧
    stateEmptyId.onSelectSet = true ∧
    (allInteractable stateEmptyId).map (fun m => m.isCategoryToggle) = [false] ∧
    handleClick (some 0) stateEmptyId = .ok (stateEmptyId, false, none) :=
  ⟨by decide, by decide, by decide, rfl⟩

/-- Claim C9 (amended with a non-empty-id proviso): in every reachable menu
state a non-empty items array implies the callback is registered, and a click
on a visible menu whose nearest hit is a non-toggle item with a non-empty id
hides the menu, returns true and invokes the callback with that item's id and
URL. -/
theorem c9_click_invokes_callback (s : MenuState) (hs : ReachableMenu s) : c9Concl s := by
  have hInv := menuInv_reachable s hs
  constructor
  · intro hne
    apply hInv.on_sel
    intro hc
    exact hne (hInv.empty_items hc)
  · intro i obj hv hobj hnt hne
    have hvf : ¬ (s.isVisible = false) := by simp [hv]
    have hmem : obj ∈ s.items := by
      rcases allInteractable_getElem_cases s i obj hobj with ⟨hi0, heq⟩ | ⟨_, htog⟩
      · rw [heq]
        exact List.getElem_mem hi0
      · exact absurd (hInv.toggle_true obj htog) (by rw [hnt]; simp)
    have hitems : s.items ≠ [] := by
      intro hc
      rw [hc] at hmem
      simp at hmem
    have hsel : s.onSelectSet = true := by
      apply hInv.on_sel
      intro hc
      exact hitems (hInv.empty_items hc)
    have hntP : ¬ (obj.isCategoryToggle = true) := by
      rw [hnt]
      simp
    unfold handleClick
    rw [if_neg hvf]
    dsimp only
    rw [hobj]
    dsimp only
    rw [if_neg hntP, if_pos ⟨hne, hsel⟩]

theorem c9_click_invokes_callback_witness :
    ReachableMenu stateFood ∧ c9Concl stateFood :=
  ⟨⟨opsFood, rfl⟩, c9_click_invokes_callback stateFood ⟨opsFood, rfl⟩⟩
